import Mathlib

/-!
# Verification of the api-neural pattern/ensemble engine

Shallow embedding, in Lean 4 over `ℤ`/`ℚ`, of the parts of the repository
that the frozen claims C1–C10 are about:

* `src/patterns/base.py` — `PatternResult`, `BasePattern.validate_history`,
  `BasePattern.normalize_scores`;
* `src/patterns/estelar_01.py` — `PatternEstelar` (equivalence-resonance matcher);
* `src/patterns/master.py` — `PatternMaster` (property matcher);
* `src/patterns/chain.py` — `ChainAnalyzer` (chain learner);
* `src/patterns/puxadas.py` — `PuxadasPattern.analyze`;
* `src/patterns/master_original_backup.py` — `MasterPattern._buscar_padroes_exatos`;
* `src/patterns/validacao_ancoras.py` — `ValidadorMultiplasAncoras`;
* `src/routes/sugestao.py` — `calcular_ensemble` and the final ranking sort;
* `src/routes/sugestao-1.py` — `aplicar_validacao_ancoras`;
* `src/utils/constants.py`, `src/utils/helpers.py` — wheel/mirror tables and helpers.

Python `dict`s (which preserve insertion order) are modelled as association
lists `List (K × V)`; Python `float` is modelled as `ℚ` (every constant in the
modelled code is decimal, and no claim depends on IEEE rounding); Python `int`
is modelled as `ℤ`.  Where the code iterates over a Python `set` (whose
iteration order is unspecified), the embedding fixes a deterministic order and
no settled claim depends on that order.
-/

namespace ApiNeural

/-! ## Python dicts as insertion-ordered association lists -/

/-- A Python `dict` with keys `K` and values `V`: an insertion-ordered
association list. -/
abbrev Dict (K V : Type) := List (K × V)

/-- `d.get(k)` / `k in d` lookup. -/
def dget {K V : Type} [DecidableEq K] (d : Dict K V) (k : K) : Option V :=
  match d with
  | [] => none
  | (k0, v0) :: rest => if k0 = k then some v0 else dget rest k

/-- `k in d`. -/
def dmem {K V : Type} [DecidableEq K] (d : Dict K V) (k : K) : Bool :=
  (dget d k).isSome

/-- `d[k] = v`: update in place if the key exists (keeping its position),
append otherwise — exactly the Python `dict` assignment semantics. -/
def dset {K V : Type} [DecidableEq K] (d : Dict K V) (k : K) (v : V) : Dict K V :=
  match d with
  | [] => [(k, v)]
  | (k0, v0) :: rest => if k0 = k then (k0, v) :: rest else (k0, v0) :: dset rest k v

/-- `d[k] += v` on a `defaultdict(float)` (missing keys count as `0`). -/
def dadd {K : Type} [DecidableEq K] (d : Dict K ℚ) (k : K) (v : ℚ) : Dict K ℚ :=
  match d with
  | [] => [(k, v)]
  | (k0, v0) :: rest => if k0 = k then (k0, v0 + v) :: rest else (k0, v0) :: dadd rest k v

/-- `d[k] += n` on a `defaultdict(int)`. -/
def daddNat {K : Type} [DecidableEq K] (d : Dict K ℕ) (k : K) (n : ℕ) : Dict K ℕ :=
  match d with
  | [] => [(k, n)]
  | (k0, v0) :: rest => if k0 = k then (k0, v0 + n) :: rest else (k0, v0) :: daddNat rest k n

/-- `d[k] *= v` on a `defaultdict(float)`: a *missing* key is first created with
value `0.0` (so the entry becomes `0.0 * v = 0`), exactly the Python
`defaultdict` read-then-assign semantics. -/
def dmul {K : Type} [DecidableEq K] (d : Dict K ℚ) (k : K) (v : ℚ) : Dict K ℚ :=
  match d with
  | [] => [(k, 0 * v)]
  | (k0, v0) :: rest => if k0 = k then (k0, v0 * v) :: rest else (k0, v0) :: dmul rest k v

/-- `max` of a nonempty Python list (`0` for the empty list, which the modelled
code never takes a `max` of). -/
def listMax : List ℚ → ℚ
  | [] => 0
  | [x] => x
  | x :: y :: rest => max x (listMax (y :: rest))

/-- Python's stable `sorted(l, key=key, reverse=True)`: insertion sort that
keeps an element after every earlier element whose key is `≥` its own. -/
def insertDesc {α : Type} (key : α → ℚ) (x : α) : List α → List α
  | [] => [x]
  | y :: rest => if key x ≤ key y then y :: insertDesc key x rest else x :: y :: rest

/-- Python `sorted(l, key=key, reverse=True)` (stable, descending). -/
def sortedDesc {α : Type} (key : α → ℚ) (l : List α) : List α :=
  l.foldl (fun acc x => insertDesc key x acc) []

/-! ## `src/utils/constants.py` and `src/utils/helpers.py` -/

/-- `RODA`: the European wheel order (`utils/constants.py`). -/
def RODA : List ℤ :=
  [0, 32, 15, 19, 4, 21, 2, 25, 17, 34, 6, 27, 13, 36, 11, 30, 8, 23, 10, 5,
   24, 16, 33, 1, 20, 14, 31, 9, 22, 18, 29, 7, 28, 12, 35, 3, 26]

/-- `ESPELHOS`: the fixed mirror pairs (`utils/constants.py`). -/
def ESPELHOS : Dict ℤ ℤ :=
  [(1, 10), (10, 1), (2, 20), (20, 2), (3, 30), (30, 3), (6, 9), (9, 6),
   (16, 19), (19, 16), (26, 29), (29, 26), (13, 31), (31, 13), (12, 21),
   (21, 12), (32, 23), (23, 32)]

/-- `utils/helpers.py` `get_vizinhos(numero, distancia)`: wheel neighbours,
left side first, then right side, as the Python list is built. -/
def get_vizinhos (numero : ℤ) (distancia : ℕ) : List ℤ :=
  match RODA.indexOf? numero with
  | none => []
  | some idx =>
    let n := RODA.length
    ((List.range distancia).map fun i => RODA.getD ((idx + n - (i + 1) % n) % n) 0) ++
    ((List.range distancia).map fun i => RODA.getD ((idx + (i + 1)) % n) 0)

/-- `utils/helpers.py` `get_espelho` (`-1` when there is no mirror). -/
def get_espelho (numero : ℤ) : ℤ := (dget ESPELHOS numero).getD (-1)

/-- `utils/helpers.py` `get_terminal`: `numero % 10` (so `0 → 0`). -/
def get_terminal (numero : ℤ) : ℤ := numero % 10

/-- `utils/helpers.py` `encontrar_sequencia`: all start indices where
`sequencia` occurs in `historico`. -/
def encontrar_sequencia (historico sequencia : List ℤ) : List ℕ :=
  if sequencia.length = 0 ∨ historico.length < sequencia.length then []
  else (List.range (historico.length - sequencia.length + 1)).filter fun i =>
    (historico.drop i).take sequencia.length = sequencia

/-! ## `src/patterns/base.py` -/

/-- `BasePattern.validate_history`: nonempty, at least `min_size` long, and
every value in `[0, 36]`. -/
def validate_history (history : List ℤ) (min_size : ℕ) : Bool :=
  if history.isEmpty ∨ history.length < min_size then false
  else history.all fun n => decide (0 ≤ n) && decide (n ≤ 36)

/-- `BasePattern.normalize_scores`: empty map for an empty map; the map
unchanged when its maximum value is `0`; otherwise every value divided by the
maximum. -/
def normalize_scores (scores : Dict ℤ ℚ) : Dict ℤ ℚ :=
  if scores.isEmpty then []
  else
    let max_score := listMax (scores.map Prod.snd)
    if max_score = 0 then scores
    else scores.map fun p => (p.1, p.2 / max_score)

/-! ## `src/patterns/estelar_01.py` — `PatternEstelar`

The equivalence-resonance matcher.  `RouletteRelations.WHEEL_ORDER` and
`RouletteRelations.MIRRORS` in `estelar_01.py` are the same tables as `RODA`
and `ESPELHOS` in `utils/constants.py`, so they are reused here.  Where the
Python code iterates over a `set` (neighbour sets, terminal families,
behavioural equivalents) the embedding fixes the order in which the code
inserts the elements; no settled claim depends on that order. -/

namespace Estelar

/-- Python `range(1, hi)`. -/
def range1 (hi : ℕ) : List ℕ := (List.range (hi - 1)).map (· + 1)

/-- `RouletteRelations.get_neighbors(num, distance)` (a set in Python;
here the insertion-ordered list, `left, right` per distance, zero removed). -/
def get_neighbors (num : ℤ) (distance : ℕ) : List ℤ :=
  if num = 0 then (if distance = 1 then [32, 26] else [])
  else
    match RODA.indexOf? num with
    | none => []
    | some idx =>
      let n := RODA.length
      let pairs := (List.range distance).flatMap fun d =>
        [RODA.getD ((idx + n - ((d + 1) % n)) % n) 0, RODA.getD ((idx + (d + 1)) % n) 0]
      (pairs.dedup).filter (· ≠ 0)

/-- `RouletteRelations.get_terminal`: `num % 10` for positive `num`, `-1`
otherwise (in particular for `0`). -/
def get_terminal (num : ℤ) : ℤ := if 0 < num then num % 10 else -1

/-- `RouletteRelations.get_terminal_family`: `{0}` for `0`, otherwise all
positive numbers `≤ 36` with the same last digit, ascending. -/
def get_terminal_family (num : ℤ) : List ℤ :=
  if num = 0 then [0]
  else ((List.range 4).map fun i => num % 10 + 10 * i).filter fun n => 0 < n ∧ n ≤ 36

/-- `RouletteRelations.get_mirror`. -/
def get_mirror (num : ℤ) : Option ℤ := dget ESPELHOS num

/-- Digit sum of a roulette number (`sum(int(d) for d in str(num))` for
`0 ≤ num ≤ 36`). -/
def digit_sum (num : ℤ) : ℤ := num / 10 + num % 10

/-- `RouletteRelations.get_behavioral_equivalents`: same digit sum, double and
half, without the number itself (`{0}` for `0`). -/
def get_behavioral_equivalents (num : ℤ) : List ℤ :=
  if num = 0 then [0]
  else
    let sums := ((List.range 36).map fun i => (i : ℤ) + 1).filter
      fun n => digit_sum n = digit_sum num
    let withDouble := if num * 2 ≤ 36 then sums ++ [num * 2] else sums
    let withHalf := if num % 2 = 0 then withDouble ++ [num / 2] else withDouble
    withHalf.dedup.filter (· ≠ num)

/-- `EquivalenceType` (the enum names; the weights live in the config). -/
inductive EqType
  | EXACT
  | NEIGHBOR
  | TERMINAL
  | MIRROR
  | PROPERTY
  | BEHAVIORAL
deriving DecidableEq, Repr

/-- The `PatternEstelar` configuration: gap/memory settings,
`equivalence_weights`, `pillar_weights` and the behaviour toggles. -/
structure Config where
  max_gap_between_elements : ℕ
  memory_short : ℕ
  memory_long : ℕ
  min_occurrences : ℕ
  wEXACT : ℚ
  wNEIGHBOR : ℚ
  wTERMINAL : ℚ
  wMIRROR : ℚ
  wPROPERTY : ℚ
  wBEHAVIORAL : ℚ
  pillar3 : ℚ
  pillar2 : ℚ
  pillar1 : ℚ
  pillar0 : ℚ
  enable_inversions : Bool
  enable_compensation : Bool
  verbose : Bool

/-- The defaults from `PatternEstelar.__init__` (also the exact configuration
`routes/sugestao.py` passes). -/
def defaultConfig : Config :=
  { max_gap_between_elements := 2
    memory_short := 10
    memory_long := 200
    min_occurrences := 2
    wEXACT := 1
    wNEIGHBOR := 0.8
    wTERMINAL := 0.6
    wMIRROR := 0.5
    wPROPERTY := 0.4
    wBEHAVIORAL := 0.3
    pillar3 := 1
    pillar2 := 0.7
    pillar1 := 0.4
    pillar0 := 0
    enable_inversions := true
    enable_compensation := true
    verbose := false }

/-- `self.equivalence_weights.get(name, 0.5)` when the config dict (as in all
configurations used by the code) carries all six names. -/
def eqWeight (cfg : Config) : EqType → ℚ
  | .EXACT => cfg.wEXACT
  | .NEIGHBOR => cfg.wNEIGHBOR
  | .TERMINAL => cfg.wTERMINAL
  | .MIRROR => cfg.wMIRROR
  | .PROPERTY => cfg.wPROPERTY
  | .BEHAVIORAL => cfg.wBEHAVIORAL

/-- `self.pillar_weights.get(confidence_level, 0)`. -/
def pillarWeight (cfg : Config) : ℕ → ℚ
  | 0 => cfg.pillar0
  | 1 => cfg.pillar1
  | 2 => cfg.pillar2
  | 3 => cfg.pillar3
  | _ => 0

/-- A `Trinca`: the pattern, its occurrences (extraction start indices, in
append order; `occurrence_count` is the length), the equivalence type of its
first insertion and the pillar `confidence_level`. -/
structure Trinca where
  pattern : ℤ × ℤ × ℤ
  occIdx : List ℕ
  eqType : EqType
  confidence : ℕ
deriving DecidableEq, Repr

/-- `Trinca.is_active`: at least two occurrences. -/
def Trinca.is_active (t : Trinca) : Bool := 2 ≤ t.occIdx.length

/-- `PatternEstelar.extract_trincas_with_gaps`: all `(trinca, start_idx)` with
the two configurable gaps (the Python `gap_pattern` string is diagnostic-only
and omitted). -/
def extract_trincas_with_gaps (cfg : Config) (history : List ℤ) :
    List ((ℤ × ℤ × ℤ) × ℕ) :=
  let n := history.length
  (List.range (n - 2)).flatMap fun start =>
    let a := history.getD start 0
    (range1 (min (cfg.max_gap_between_elements + 2) (n - start - 1))).flatMap fun bo =>
      let bidx := start + bo
      let b := history.getD bidx 0
      (range1 (min (cfg.max_gap_between_elements + 2) (n - bidx))).flatMap fun co =>
        let c := history.getD (bidx + co) 0
        [((a, b, c), start)]

/-- `PatternEstelar.normalize_trinca`: the exact trinca, then (when the
corresponding weight is positive) neighbour substitutions, terminal-family
substitutions (only when the terminal of the *first* element occurs at least
twice in the trinca), the mirror image, and the three inversions. -/
def normalize_trinca (cfg : Config) (t : ℤ × ℤ × ℤ) :
    List ((ℤ × ℤ × ℤ) × EqType × ℚ) :=
  let (a, b, c) := t
  if ¬ (0 ≤ a ∧ a ≤ 36 ∧ 0 ≤ b ∧ b ≤ 36 ∧ 0 ≤ c ∧ c ≤ 36) then [(t, .EXACT, 1)]
  else
    [(t, .EXACT, 1)]
    ++ (if 0 < cfg.wNEIGHBOR then
          (a :: get_neighbors a 1).flatMap fun na =>
            (b :: get_neighbors b 1).flatMap fun nb =>
              (c :: get_neighbors c 1).flatMap fun nc =>
                if (na, nb, nc) ≠ t then [((na, nb, nc), .NEIGHBOR, cfg.wNEIGHBOR)]
                else []
        else [])
    ++ (if 0 < cfg.wTERMINAL then
          let terminals := [get_terminal a, get_terminal b, get_terminal c]
          if 2 ≤ terminals.count (get_terminal a) then
            (get_terminal_family a).flatMap fun ta =>
              (get_terminal_family b).flatMap fun tb =>
                (get_terminal_family c).flatMap fun tc =>
                  if (ta, tb, tc) ≠ t then [((ta, tb, tc), .TERMINAL, cfg.wTERMINAL)]
                  else []
          else []
        else [])
    ++ (if 0 < cfg.wMIRROR then
          let ma := (get_mirror a).getD a
          let mb := (get_mirror b).getD b
          let mc := (get_mirror c).getD c
          if (ma, mb, mc) ≠ t then [((ma, mb, mc), .MIRROR, cfg.wMIRROR)] else []
        else [])
    ++ (if cfg.enable_inversions ∧ 0 < cfg.wBEHAVIORAL then
          [(b, a, c), (a, c, b), (c, b, a)].flatMap fun inv =>
            if inv ≠ t then [(inv, .BEHAVIORAL, cfg.wBEHAVIORAL)] else []
        else [])

/-- `PatternEstelar.calculate_pillar_strength`: how many of the
exact/terminal/neighbour pillars match in at least two of the three positions. -/
def calculate_pillar_strength (original candidate : ℤ × ℤ × ℤ) : ℕ :=
  let os := [original.1, original.2.1, original.2.2]
  let cs := [candidate.1, candidate.2.1, candidate.2.2]
  let pairs := os.zip cs
  let exact := (pairs.filter fun p => p.1 = p.2).length
  let term := (pairs.filter fun p => get_terminal p.1 = get_terminal p.2).length
  let neigh := (pairs.filter fun p => p.2 ∈ get_neighbors p.1 1 ∨ p.2 = p.1).length
  (if 2 ≤ exact then 1 else 0) + (if 2 ≤ term then 1 else 0) +
    (if 2 ≤ neigh then 1 else 0)

/-- `tuple(sorted(trinca))`: the canonical key (the three values in ascending
order). -/
def sort3 (t : ℤ × ℤ × ℤ) : ℤ × ℤ × ℤ :=
  let lo := min t.1 (min t.2.1 t.2.2)
  let hi := max t.1 (max t.2.1 t.2.2)
  (lo, t.1 + t.2.1 + t.2.2 - lo - hi, hi)

/-- The grouped trincas: canonical key (sorted triple) to the bucket of
distinct patterns, both in insertion order. -/
abbrev Groups := List ((ℤ × ℤ × ℤ) × List Trinca)

/-- Record one occurrence of pattern `nt` (of equivalence type `ty`, found at
extraction index `idx`) inside one bucket: the first `Trinca` with the same
pattern gets the occurrence, otherwise a fresh `Trinca` is appended. -/
def add_to_bucket (lst : List Trinca) (nt : ℤ × ℤ × ℤ) (ty : EqType) (idx : ℕ) :
    List Trinca :=
  match lst with
  | [] => [⟨nt, [idx], ty, 0⟩]
  | t :: rest =>
    if t.pattern = nt then { t with occIdx := t.occIdx ++ [idx] } :: rest
    else t :: add_to_bucket rest nt ty idx

/-- Record one occurrence under its canonical key (buckets are created in
first-touch order, like a `defaultdict`). -/
def add_to_groups (groups : Groups) (canonical nt : ℤ × ℤ × ℤ) (ty : EqType)
    (idx : ℕ) : Groups :=
  match groups with
  | [] => [(canonical, add_to_bucket [] nt ty idx)]
  | (k, lst) :: rest =>
    if k = canonical then (k, add_to_bucket lst nt ty idx) :: rest
    else (k, lst) :: add_to_groups rest canonical nt ty idx

/-- `PatternEstelar.process_history`: extract all gapped trincas, group all
their normalized versions under canonical keys, and keep (as `trinca_cache`)
the buckets that contain active trincas, with the pillar `confidence_level`
computed (the code compares each active pattern with itself).  Returns
`(trinca_groups, trinca_cache)`. -/
def process_history (cfg : Config) (history : List ℤ) : Groups × Groups :=
  let all_trincas := extract_trincas_with_gaps cfg history
  let trinca_groups := all_trincas.foldl
    (fun g ti =>
      (normalize_trinca cfg ti.1).foldl
        (fun g2 v => add_to_groups g2 (sort3 v.1) v.1 v.2.1 ti.2) g)
    []
  let trinca_cache := trinca_groups.filterMap fun kl =>
    let active := kl.2.filter fun t => t.is_active
    if active.isEmpty then none
    else some (kl.1, active.map fun t =>
      if 2 ≤ t.occIdx.length then
        { t with confidence := calculate_pillar_strength t.pattern t.pattern }
      else t)
  (trinca_groups, trinca_cache)

/-- One resonance prediction. -/
structure Prediction where
  trinca : ℤ × ℤ × ℤ
  missing : ℤ
  candidates : List (ℤ × ℚ)
  score : ℚ
  confidence : ℕ
  occurrences : ℕ
deriving Repr

/-- `PatternEstelar._get_candidates_for_c`: the missing number, its wheel
neighbours, terminal family, mirror and behavioural equivalents, deduplicated
keeping the larger weight, sorted by weight (descending, stable). -/
def get_candidates_for_c (cfg : Config) (c : ℤ) : List (ℤ × ℚ) :=
  let candidates :=
    [(c, (1 : ℚ))]
    ++ (get_neighbors c 1).map (fun n => (n, (0.8 : ℚ)))
    ++ ((get_terminal_family c).filter (· ≠ c)).map (fun n => (n, (0.6 : ℚ)))
    ++ (match get_mirror c with | some m => [(m, (0.5 : ℚ))] | none => [])
    ++ (if cfg.enable_compensation then
          (get_behavioral_equivalents c).map (fun n => (n, (0.3 : ℚ)))
        else [])
  let seen := candidates.foldl
    (fun d nw =>
      match dget d nw.1 with
      | none => d ++ [nw]
      | some w0 => if w0 < nw.2 then dset d nw.1 nw.2 else d)
    []
  sortedDesc Prod.snd seen

/-- `PatternEstelar.detect_resonance`: for every active trinca whose first two
elements both appear in the recent window, predict the third element with
score `pillar_weight * equivalence_weight * recency`; keep only the strongest
prediction unless verbose. -/
def detect_resonance (cfg : Config) (cache : Groups) (recent_numbers : List ℤ) :
    List Prediction :=
  if recent_numbers.length < 2 then []
  else
    let win := recent_numbers.drop (recent_numbers.length - cfg.memory_short)
    let len := win.length
    let preds := cache.flatMap fun kl => kl.2.flatMap fun t =>
      if ¬ t.is_active then []
      else
        let a := t.pattern.1
        let b := t.pattern.2.1
        let c := t.pattern.2.2
        if a ∈ win ∧ b ∈ win then
          let a_idx := len - 1 - win.reverse.indexOf a
          let b_idx := len - 1 - win.reverse.indexOf b
          let recency := ((a_idx : ℚ) + (b_idx : ℚ)) / (2 * (len : ℚ))
          let base := pillarWeight cfg t.confidence * eqWeight cfg t.eqType * recency
          [⟨t.pattern, c, get_candidates_for_c cfg c, base, t.confidence,
            t.occIdx.length⟩]
        else []
    let sorted := sortedDesc (fun p => p.score) preds
    if 1 < sorted.length ∧ cfg.verbose = false then sorted.take 1 else sorted

/-- The metadata of an `PatternEstelar.analyze` result (structured instead of
the Python string messages). -/
inductive Meta
  | invalidHistory
  | noResonance
  | success (trinca : ℤ × ℤ × ℤ) (confidence : ℕ) (occurrences : ℕ)
      (active_trincas : ℕ) (trincas_found : ℕ)
deriving DecidableEq, Repr

/-- The `PatternResult` returned by `PatternEstelar.analyze`. -/
structure Result where
  candidatos : List ℤ
  scores : Dict ℤ ℚ
  meta : Meta
deriving Repr

/-- `PatternEstelar.analyze`: validate, reverse the (truncated) history,
process it, detect resonance, convert the best prediction to scores, add the
zero protection when `0` is not already scored, and normalize. -/
def analyze (cfg : Config) (history : List ℤ) : Result :=
  if ¬ validate_history history 10 then ⟨[], [], .invalidHistory⟩
  else
    let hrev := (history.take cfg.memory_long).reverse
    let gc := process_history cfg hrev
    let preds := detect_resonance cfg gc.2 hrev
    match preds with
    | [] => ⟨[], [], .noResonance⟩
    | best :: _ =>
      let sc := best.candidates.foldl
        (fun p nw =>
          if (0 ≤ nw.1 ∧ nw.1 ≤ 36) ∧ ¬ dmem p.1 nw.1 then
            (p.1 ++ [(nw.1, nw.2 * best.score)], p.2 ++ [nw.1])
          else p)
        (([] : Dict ℤ ℚ), ([] : List ℤ))
      let sc2 := if ¬ dmem sc.1 0 then (sc.1 ++ [((0 : ℤ), (0.1 : ℚ))], sc.2 ++ [0])
        else sc
      let scores := normalize_scores sc2.1
      ⟨sc2.2.take 6, scores,
        .success best.trinca best.confidence best.occurrences gc.2.length
          (gc.1.foldl (fun n kl => n + kl.2.length) 0)⟩

end Estelar

/-! ## Facts about `listMax` and `normalize_scores` -/

theorem le_listMax : ∀ (l : List ℚ), ∀ x ∈ l, x ≤ listMax l
  | [] => by simp
  | [y] => by
    intro x hx
    rw [List.mem_singleton] at hx
    simp [listMax, hx]
  | y :: z :: rest => by
    intro x hx
    rcases List.mem_cons.mp hx with rfl | hx
    · simp [listMax]
    · exact le_trans (le_listMax (z :: rest) x hx) (by simp [listMax])

theorem listMax_mem : ∀ (l : List ℚ), l ≠ [] → listMax l ∈ l
  | [], h => absurd rfl h
  | [y], _ => by simp [listMax]
  | y :: z :: rest, _ => by
    rcases le_total (listMax (z :: rest)) y with h | h
    · simp [listMax, max_eq_left h]
    · have := listMax_mem (z :: rest) (by simp)
      rw [List.mem_cons]
      simp only [listMax, max_eq_right h]
      exact Or.inr this

theorem listMax_map_div (M : ℚ) (hM : 0 < M) :
    ∀ (l : List ℚ), listMax (l.map (· / M)) = listMax l / M
  | [] => by simp [listMax]
  | [x] => by simp [listMax]
  | x :: y :: rest => by
    have ih := listMax_map_div M hM (y :: rest)
    simp only [List.map_cons] at ih ⊢
    show max (x / M) (listMax (y / M :: rest.map (· / M))) = max x (listMax (y :: rest)) / M
    rw [ih]
    rcases le_total x (listMax (y :: rest)) with h | h
    · rw [max_eq_right h, max_eq_right ((div_le_div_iff_of_pos_right hM).mpr h)]
    · rw [max_eq_left h, max_eq_left ((div_le_div_iff_of_pos_right hM).mpr h)]

/-! ## `src/patterns/chain.py` — `ChainAnalyzer`

The chain learner.  Its mutable state is the nested map
`chains : {length: {sequence: [ChainPattern]}}` plus the first-order
`pair_cache`; `_learn_from_history` *clears both* and relearns from the full
history on every call.  The diagnostic-only metadata of `analyze`
(inversions, compensations, learning summary) is not modelled; no claim
depends on it. -/

namespace Chain

/-- `ChainPattern` (`patterns/chain.py`). -/
structure ChainPattern where
  sequence : List ℤ
  outcome : ℤ
  count : ℕ
  last_seen : ℕ
  confidence : ℚ
deriving DecidableEq, Repr

/-- The mutable state of a `ChainAnalyzer`: the learned chains
(`{comprimento: {sequência: [ChainPattern]}}`) and the pair cache. -/
structure State where
  chains : Dict ℕ (Dict (List ℤ) (List ChainPattern))
  pair_cache : Dict ℤ (Dict ℤ ℕ)
deriving DecidableEq, Repr

/-- A fresh `ChainAnalyzer` state. -/
def initState : State := ⟨[], []⟩

/-- The `ChainAnalyzer` configuration. -/
structure Config where
  min_support : ℕ
  decay : ℚ
  miss_window : ℕ
  max_length : ℕ

/-- The defaults from `ChainAnalyzer.__init__` (also the exact configuration
`routes/sugestao.py` passes). -/
def defaultConfig : Config :=
  { min_support := 2, decay := 0.95, miss_window := 30, max_length := 4 }

/-- One observation for `_learn_chains_of_length`: the first `ChainPattern` of
the bucket with this `outcome` gets `count += 1`, `last_seen := i`,
`confidence += w`; otherwise a fresh pattern is appended. -/
def updateBucket (lst : List ChainPattern) (seq : List ℤ) (outcome : ℤ) (i : ℕ)
    (w : ℚ) : List ChainPattern :=
  match lst with
  | [] => [⟨seq, outcome, 1, i, w⟩]
  | p :: rest =>
    if p.outcome = outcome then
      { p with count := p.count + 1, last_seen := i, confidence := p.confidence + w } :: rest
    else p :: updateBucket rest seq outcome i w

/-- Record one observation under its sequence key (buckets created in
first-touch order, like the Python `defaultdict(list)`). -/
def updateChains (d : Dict (List ℤ) (List ChainPattern)) (seq : List ℤ)
    (outcome : ℤ) (i : ℕ) (w : ℚ) : Dict (List ℤ) (List ChainPattern) :=
  match d with
  | [] => [(seq, updateBucket [] seq outcome i w)]
  | (k, lst) :: rest =>
    if k = seq then (k, updateBucket lst seq outcome i w) :: rest
    else (k, lst) :: updateChains rest seq outcome i w

/-- `ChainAnalyzer._learn_chains_of_length` over the chronologically ordered
history: for every start index, record the `length`-gram and its successor
with the age-decayed weight `decay ^ (len(history) - i - length)`. -/
def learn_chains_of_length (decay : ℚ) (history : List ℤ) (length : ℕ) :
    Dict (List ℤ) (List ChainPattern) :=
  (List.range (history.length - length)).foldl
    (fun d i =>
      let sequence := (history.drop i).take length
      let outcome := history.getD (i + length) 0
      let position_weight := decay ^ (history.length - i - length)
      updateChains d sequence outcome i position_weight)
    []

/-- `ChainAnalyzer._learn_pairs`. -/
def learn_pairs (history : List ℤ) : Dict ℤ (Dict ℤ ℕ) :=
  (List.range (history.length - 1)).foldl
    (fun pc i =>
      let from_num := history.getD i 0
      let to_num := history.getD (i + 1) 0
      match dget pc from_num with
      | none => pc ++ [(from_num, [(to_num, 1)])]
      | some d => dset pc from_num (daddNat d to_num 1))
    []

/-- `ChainAnalyzer._learn_from_history`: *clears* the previous model (the
incoming state is discarded) and relearns every chain length and the pair
cache from the reversed (chronological) history.  A `chains` key for a length
is only created when at least one gram of that length exists. -/
def learn_from_history (cfg : Config) (_st : State) (history : List ℤ) : State :=
  let reversed_hist := history.reverse
  let chains := (Estelar.range1 (cfg.max_length + 1)).foldl
    (fun cs len =>
      let d := learn_chains_of_length cfg.decay reversed_hist len
      if d.isEmpty then cs else cs ++ [(len, d)])
    []
  ⟨chains, learn_pairs reversed_hist⟩

/-- `ChainAnalyzer._calculate_missing_bonus`. -/
def calculate_missing_bonus (recent : List ℤ) (candidates : Dict ℤ ℚ) :
    Dict ℤ ℚ :=
  if candidates.isEmpty then []
  else
    let max_weight := listMax (candidates.map Prod.snd)
    let sorted_candidates := sortedDesc Prod.snd candidates
    (sorted_candidates.take 15).foldl
      (fun b nw =>
        if nw.1 ∉ recent then dset b nw.1 (min 0.8 (nw.2 / max_weight * 0.8))
        else b)
      []

/-- `ChainAnalyzer._find_candidates`: chain lookups by suffix (longest
confidence first, top 5 per length, weight `confidence * (2.0 + 0.5 * len)`),
the pair-cache fallback when fewer than five candidates (skipped when the most
recent number is `0`, which is falsy in Python), the missing bonus
(`* (1 + bonus * 2)`), and the diversity floor of `0.1` entries when fewer
than three candidates remain. -/
def find_candidates (cfg : Config) (st : State) (recent_history : List ℤ) :
    Dict ℤ ℚ :=
  let cands := (Estelar.range1 (min (cfg.max_length + 1)
      (recent_history.length + 1))).foldl
    (fun cands chain_len =>
      let suffix := (recent_history.take chain_len).reverse
      match dget st.chains chain_len with
      | none => cands
      | some d =>
        match dget d suffix with
        | none => cands
        | some patterns =>
          let valid_patterns := patterns.filter fun p => cfg.min_support ≤ p.count
          if valid_patterns.isEmpty then cands
          else
            let sorted_patterns := sortedDesc (fun p => p.confidence) valid_patterns
            (sorted_patterns.take 5).foldl
              (fun cs p =>
                dadd cs p.outcome (p.confidence * (2 + 0.5 * (chain_len : ℚ))))
              cands)
    []
  let cands :=
    if cands.length < 5 then
      match recent_history.head? with
      | none => cands
      | some ultimo =>
        if ultimo = 0 then cands
        else
          match dget st.pair_cache ultimo with
          | none => cands
          | some d =>
            ((sortedDesc (fun p => (p.2 : ℚ)) d).take 10).foldl
              (fun cs tc =>
                if 1 ≤ tc.2 then dadd cs tc.1 ((tc.2 : ℚ) * 1.5) else cs)
              cands
    else cands
  let missing_bonus := calculate_missing_bonus (recent_history.take cfg.miss_window) cands
  let cands := missing_bonus.foldl
    (fun cs nb => if dmem cs nb.1 then dmul cs nb.1 (1 + nb.2 * 2) else cs)
    cands
  if cands.length < 3 then
    let recent_set := recent_history.take cfg.miss_window
    (List.range 37).foldl
      (fun cs num =>
        if (num : ℤ) ∉ recent_set ∧ ¬ dmem cs (num : ℤ) then cs ++ [((num : ℤ), 0.1)]
        else cs)
      cands
  else cands

/-- The metadata of a `ChainAnalyzer.analyze` result (`status: insuficiente`
versus a successful analysis; the diagnostic counters are not modelled). -/
inductive Meta
  | insufficient (total_numeros : ℕ)
  | success
deriving DecidableEq, Repr

/-- The `PatternResult` returned by `ChainAnalyzer.analyze`. -/
structure Result where
  candidatos : List ℤ
  scores : Dict ℤ ℚ
  meta : Meta
deriving Repr

/-- `ChainAnalyzer.analyze`: validate (minimum size `min_support`), relearn
from the full history, score candidates from the 50 most recent numbers,
normalize, and sort candidates by normalized score.  Returns the result and
the mutated learner state (unchanged on the insufficient branch). -/
def analyze (cfg : Config) (st : State) (history : List ℤ) : Result × State :=
  if ¬ validate_history history cfg.min_support then
    (⟨[], [], .insufficient history.length⟩, st)
  else
    let st2 := learn_from_history cfg st history
    let candidates_scores := find_candidates cfg st2 (history.take 50)
    let scores_normalizados := normalize_scores candidates_scores
    let sorted_candidates := sortedDesc Prod.snd scores_normalizados
    (⟨sorted_candidates.map Prod.fst, sorted_candidates, .success⟩, st2)

/-- All `ChainPattern` entries retained anywhere in a state's chain model. -/
def entries (st : State) : List ChainPattern :=
  st.chains.flatMap fun ld => ld.2.flatMap Prod.snd

/-- The learned confidence of `sequence → outcome` at a given chain length. -/
def confidence_of (st : State) (len : ℕ) (seq : List ℤ) (outcome : ℤ) :
    Option ℚ :=
  match dget st.chains len with
  | none => none
  | some d =>
    match dget d seq with
    | none => none
    | some lst => (lst.find? fun p => p.outcome = outcome).map fun p => p.confidence

end Chain

/-! ## `src/patterns/master.py` — `PatternMaster`

The property matcher.  Python string property values become small inductives;
the heterogeneous `List[PropertyPattern]` becomes the wrapper `MPattern`.
Python `set`s of numbers are modelled as increasing-order lists (a fixed
deterministic iteration order; no claim depends on the particular order).
With the default configuration the instance fields `property_history`,
`pattern_cache`, `active_cycles` and `block_conditions` are each cleared or
rebuilt before being read on every `analyze` call, so the only state carried
across calls that can influence anything is the `stats` dictionary, threaded
here explicitly.  The human-readable `reason`/`error` metadata strings
(deterministic functions of the modelled data) are not modelled. -/

namespace Master

/-- `'green' | 'red' | 'black'`. -/
inductive Color
  | green | red | black
deriving DecidableEq, Repr

/-- `'zero' | 'even' | 'odd'`. -/
inductive Parity
  | zero | even | odd
deriving DecidableEq, Repr

/-- `'zero' | 'low' | 'high'`. -/
inductive RangeV
  | zero | low | high
deriving DecidableEq, Repr

/-- `'voisins' | 'tiers' | 'orphelins' | 'none'`. -/
inductive GroupV
  | voisins | tiers | orphelins | gnone
deriving DecidableEq, Repr

/-- The combined property string: `'zero'` for the number `0`, otherwise
`"D{dozen}{E|O}"`. -/
inductive CombinedV
  | zero
  | comb (dozen : ℤ) (isEven : Bool)
deriving DecidableEq, Repr

/-- `RouletteProperties.RED_NUMBERS`. -/
def RED_NUMBERS : List ℤ :=
  [1, 3, 5, 7, 9, 12, 14, 16, 18, 19, 21, 23, 25, 27, 30, 32, 34, 36]

/-- `RouletteProperties.BLACK_NUMBERS`. -/
def BLACK_NUMBERS : List ℤ :=
  [2, 4, 6, 8, 10, 11, 13, 15, 17, 20, 22, 24, 26, 28, 29, 31, 33, 35]

/-- `RouletteProperties.VOISINS` (master's own set, not `constants.py`). -/
def VOISINS_M : List ℤ :=
  [0, 2, 3, 4, 7, 12, 15, 18, 19, 21, 22, 25, 26, 28, 29, 32, 35]

/-- `RouletteProperties.TIERS` (master's own set). -/
def TIERS_M : List ℤ :=
  [5, 8, 10, 11, 13, 16, 23, 24, 27, 30, 33, 36]

/-- `RouletteProperties.ORPHELINS` (master's own set). -/
def ORPHELINS_M : List ℤ :=
  [1, 6, 9, 14, 17, 20, 31, 34]

/-- `RouletteProperties.get_dozen`. -/
def get_dozen (num : ℤ) : ℤ :=
  if num = 0 then 0 else (num - 1) / 12 + 1

/-- `RouletteProperties.get_column`. -/
def get_column (num : ℤ) : ℤ :=
  if num = 0 then 0 else (num - 1) % 3 + 1

/-- `RouletteProperties.get_color`. -/
def get_color (num : ℤ) : Color :=
  if num = 0 then .green else if num ∈ RED_NUMBERS then .red else .black

/-- `RouletteProperties.get_parity`. -/
def get_parity (num : ℤ) : Parity :=
  if num = 0 then .zero else if num % 2 = 0 then .even else .odd

/-- `RouletteProperties.get_range`. -/
def get_range (num : ℤ) : RangeV :=
  if num = 0 then .zero else if num ≤ 18 then .low else .high

/-- `RouletteProperties.get_group`. -/
def get_group (num : ℤ) : GroupV :=
  if num ∈ VOISINS_M then .voisins
  else if num ∈ TIERS_M then .tiers
  else if num ∈ ORPHELINS_M then .orphelins
  else .gnone

/-- `RouletteProperties.get_numbers_by_combined` (e.g. dozen 1, even). -/
def get_numbers_by_combined (dozen : ℤ) (isEven : Bool) : List ℤ :=
  ((List.range 12).map fun k => (dozen - 1) * 12 + 1 + (k : ℤ)).filter fun n =>
    if isEven then n % 2 = 0 else n % 2 = 1

/-- All properties of one number (`RouletteProperties.get_all_properties`,
including the hard-coded special case for `0`). -/
structure Props where
  dozen : ℤ
  column : ℤ
  color : Color
  parity : Parity
  range : RangeV
  group : GroupV
  combined : CombinedV
deriving DecidableEq, Repr

/-- `RouletteProperties.get_all_properties`. -/
def get_all_properties (num : ℤ) : Props :=
  if num = 0 then ⟨0, 0, .green, .zero, .zero, .voisins, .zero⟩
  else ⟨get_dozen num, get_column num, get_color num, get_parity num,
        get_range num, get_group num, .comb (get_dozen num) (num % 2 = 0)⟩

/-- `'alternation' | 'repetition' | 'progression'`. -/
inductive PatType
  | alternation | repetition | progression
deriving DecidableEq, Repr

/-- `PropertyPattern` over one property's value type. -/
structure PropertyPattern (V : Type) where
  pattern : List V
  occurrences : ℕ
  last_index : ℕ
  pattern_type : PatType
  confidence : ℚ
deriving DecidableEq, Repr

/-- The last `n` elements of a list (Python `l[-n:]`). -/
def takeLast {α : Type} (n : ℕ) (l : List α) : List α :=
  l.drop (l.length - n)

/-- Number of adjacent unequal pairs (`window[i] != window[i+1]`). -/
def countAlternations {V : Type} [DecidableEq V] : List V → ℕ
  | a :: b :: rest => (if a ≠ b then 1 else 0) + countAlternations (b :: rest)
  | _ => 0

/-- The `pattern` list built by `_detect_alternation`: for each adjacent
unequal pair, append its left value unless it repeats the last appended. -/
def altPatternAux {V : Type} [DecidableEq V] (acc : List V) : List V → List V
  | a :: b :: rest =>
    if a ≠ b then
      if acc.getLast? ≠ some a then altPatternAux (acc ++ [a]) (b :: rest)
      else altPatternAux acc (b :: rest)
    else altPatternAux acc (b :: rest)
  | _ => acc

/-- `PatternMaster._detect_alternation`. -/
def detect_alternation {V : Type} [DecidableEq V] (w : List V) :
    Option (PropertyPattern V) :=
  if w.length < 4 then none
  else
    let alternations := countAlternations w
    let pattern := altPatternAux [] w
    if w.length - 2 ≤ alternations then
      some ⟨takeLast 4 pattern, alternations / 2, w.length - 1, .alternation,
            (alternations : ℚ) / ((w.length - 1 : ℕ) : ℚ)⟩
    else none

/-- The backwards run-length walk of `_detect_repetition`: records each run of
length `≥ 2` into the counter (Python `Counter` assignment) in encounter
order.  The `pattern` list the Python builds alongside is unused. -/
def repRunsAux {V : Type} [DecidableEq V] (counter : Dict V ℕ) (current : V)
    (count : ℕ) : List V → Dict V ℕ
  | [] => if 2 ≤ count then dset counter current count else counter
  | x :: rest =>
    if x = current then repRunsAux counter current (count + 1) rest
    else if 2 ≤ count then repRunsAux (dset counter current count) x 1 rest
    else repRunsAux counter x 1 rest

/-- `Counter.most_common(1)[0]`: largest count, ties by first insertion. -/
def mostCommon1 {V : Type} (c : Dict V ℕ) : Option (V × ℕ) :=
  (sortedDesc (fun p => (p.2 : ℚ)) c).head?

/-- `PatternMaster._detect_repetition`. -/
def detect_repetition {V : Type} [DecidableEq V] (w : List V) :
    Option (PropertyPattern V) :=
  if w.length < 3 then none
  else
    match w.reverse with
    | [] => none
    | last :: rest =>
      let counter := repRunsAux [] last 1 rest
      match mostCommon1 counter with
      | none => none
      | some mc =>
        some ⟨[mc.1], mc.2, w.length - 1, .repetition,
              (mc.2 : ℚ) / (w.length : ℚ)⟩

/-- The progression triples collected by `_detect_progression` (each window
triple with zeros dropped, kept when it is `[1,2,3]`, `[3,2,1]`, strictly
increasing, or strictly decreasing). -/
def progTriples (w : List ℤ) : List (ℤ × ℤ × ℤ) :=
  (List.range (w.length - 2)).filterMap fun i =>
    match ((w.drop i).take 3).filter (· ≠ 0) with
    | [a, b, c] =>
      if (a = 1 ∧ b = 2 ∧ c = 3) ∨ (a = 3 ∧ b = 2 ∧ c = 1)
          ∨ (a < b ∧ b < c) ∨ (b < a ∧ c < b) then
        some (a, b, c)
      else none
    | _ => none

/-- `PatternMaster._detect_progression` (dozen/column histories only). -/
def detect_progression (w : List ℤ) : Option (PropertyPattern ℤ) :=
  if w.length < 3 then none
  else
    let progressions := progTriples w
    let counts := progressions.foldl (fun d t => daddNat d t 1) []
    match mostCommon1 counts with
    | none => none
    | some mc =>
      some ⟨[mc.1.1, mc.1.2.1, mc.1.2.2], mc.2, w.length - 1, .progression,
            (mc.2 : ℚ) / (progressions.length : ℚ)⟩

/-- The per-property histories (`property_history`), each capped at the deque
bound `maxlen = max(window_sizes.values()) = 200`. -/
structure PropHistory where
  dozen : List ℤ
  column : List ℤ
  color : List Color
  parity : List Parity
  range : List RangeV
  group : List GroupV
  combined : List CombinedV
deriving DecidableEq, Repr

/-- `PatternMaster.process_properties`: clear and refill every property
history from the (chronologically ordered) input. -/
def process_properties (history : List ℤ) : PropHistory :=
  ⟨takeLast 200 (history.map fun n => (get_all_properties n).dozen),
   takeLast 200 (history.map fun n => (get_all_properties n).column),
   takeLast 200 (history.map fun n => (get_all_properties n).color),
   takeLast 200 (history.map fun n => (get_all_properties n).parity),
   takeLast 200 (history.map fun n => (get_all_properties n).range),
   takeLast 200 (history.map fun n => (get_all_properties n).group),
   takeLast 200 (history.map fun n => (get_all_properties n).combined)⟩

/-- A property name (`PropertyType`). -/
inductive PropName
  | dozen | column | color | parity | range | group | combined
deriving DecidableEq, Repr

/-- One detected pattern, wrapping the per-property value type. -/
inductive MPattern
  | dozen (p : PropertyPattern ℤ)
  | column (p : PropertyPattern ℤ)
  | color (p : PropertyPattern Color)
  | parity (p : PropertyPattern Parity)
  | range (p : PropertyPattern RangeV)
  | group (p : PropertyPattern GroupV)
  | combined (p : PropertyPattern CombinedV)
deriving DecidableEq, Repr

/-- The wrapped pattern's `pattern_type`. -/
def MPattern.ptype : MPattern → PatType
  | .dozen p => p.pattern_type
  | .column p => p.pattern_type
  | .color p => p.pattern_type
  | .parity p => p.pattern_type
  | .range p => p.pattern_type
  | .group p => p.pattern_type
  | .combined p => p.pattern_type

/-- The wrapped pattern's `confidence`. -/
def MPattern.confidence : MPattern → ℚ
  | .dozen p => p.confidence
  | .column p => p.confidence
  | .color p => p.confidence
  | .parity p => p.confidence
  | .range p => p.confidence
  | .group p => p.confidence
  | .combined p => p.confidence

/-- The wrapped pattern's `occurrences`. -/
def MPattern.occurrences : MPattern → ℕ
  | .dozen p => p.occurrences
  | .column p => p.occurrences
  | .color p => p.occurrences
  | .parity p => p.occurrences
  | .range p => p.occurrences
  | .group p => p.occurrences
  | .combined p => p.occurrences

/-- The wrapped pattern's property name. -/
def MPattern.propName : MPattern → PropName
  | .dozen _ => .dozen
  | .column _ => .column
  | .color _ => .color
  | .parity _ => .parity
  | .range _ => .range
  | .group _ => .group
  | .combined _ => .combined

/-- The alternation + repetition detections for one property, kept when
confirmed (`occurrences ≥ min_confirmations`). -/
def patternsFor {V : Type} [DecidableEq V] (hist : List V)
    (wsize minconf : ℕ) (wrap : PropertyPattern V → MPattern) : List MPattern :=
  if hist.length < 3 then []
  else
    let window := takeLast wsize hist
    (match detect_alternation window with
     | some p => if minconf ≤ p.occurrences then [wrap p] else []
     | none => []) ++
    (match detect_repetition window with
     | some p => if minconf ≤ p.occurrences then [wrap p] else []
     | none => [])

/-- Dozen/column additionally get the progression detection (`min 2`). -/
def patternsForInt (hist : List ℤ) (wsize minconf : ℕ)
    (wrap : PropertyPattern ℤ → MPattern) : List MPattern :=
  patternsFor hist wsize minconf wrap ++
  (if hist.length < 3 then []
   else
     match detect_progression (takeLast wsize hist) with
     | some p => if 2 ≤ p.occurrences then [wrap p] else []
     | none => [])

/-- `PatternMaster.detect_property_patterns` with the default window sizes and
minimum confirmations, iterating properties in `PropertyType` enum order. -/
def detect_property_patterns (ph : PropHistory) : List MPattern :=
  patternsForInt ph.dozen 200 2 MPattern.dozen ++
  patternsForInt ph.column 200 2 MPattern.column ++
  patternsFor ph.color 10 3 MPattern.color ++
  patternsFor ph.parity 10 3 MPattern.parity ++
  patternsFor ph.range 15 2 MPattern.range ++
  patternsFor ph.group 200 2 MPattern.group ++
  patternsFor ph.combined 15 2 MPattern.combined

/-- A detected cycle (`CycleDetection`), one constructor per `cycle_type`. -/
inductive Cycle
  | dozen_complete (elements : List ℤ) (next_expected : ℤ)
  | binary_color (elements : List Color) (completed : Bool) (next_expected : Color)
  | parity_break (elements : List Parity) (break_point : Parity) (next_expected : Parity)
deriving DecidableEq, Repr

/-- The cycle's `completed` flag. -/
def Cycle.completed : Cycle → Bool
  | .dozen_complete _ _ => true
  | .binary_color _ c _ => c
  | .parity_break _ _ _ => false

/-- Python truthiness of `cycle.next_expected` (only the dozen cycle stores a
number; the color/parity cycles store nonempty strings). -/
def Cycle.nextTruthy : Cycle → Bool
  | .dozen_complete _ n => n ≠ 0
  | _ => true

/-- The `while` loop of the binary-color cycle: first members of equal
adjacent pairs, advancing by 2 over a pair and by 1 otherwise. -/
def colorPairs : List Color → List Color
  | a :: b :: rest => if a = b then a :: colorPairs rest else colorPairs (b :: rest)
  | _ => []

/-- Length of the equal-to-`v` prefix. -/
def countWhileEq {V : Type} [DecidableEq V] (v : V) : List V → ℕ
  | [] => 0
  | x :: rest => if x = v then 1 + countWhileEq v rest else 0

/-- `PatternMaster.detect_cycles`: completed dozen cycle, binary color cycle,
and parity-break cycle.  `set(last3) == {1,2,3}` on a 3-element list is
equivalent to membership of all of `1, 2, 3`. -/
def detect_cycles (ph : PropHistory) : List Cycle :=
  let c1 :=
    let dh := takeLast 9 ph.dozen
    if 3 ≤ dh.length then
      let clean := dh.filter (· ≠ 0)
      if 3 ≤ clean.length then
        let last3 := takeLast 3 clean
        if 1 ∈ last3 ∧ 2 ∈ last3 ∧ 3 ∈ last3 then
          [Cycle.dozen_complete last3 (last3.headD 0)]
        else []
      else []
    else []
  let c2 :=
    let ch := takeLast 6 ph.color
    if 6 ≤ ch.length then
      let pattern := colorPairs ch
      match pattern.reverse with
      | a :: b :: _ =>
        if a ≠ b then
          [Cycle.binary_color pattern (decide (3 ≤ pattern.length))
            (if a = .black then .red else .black)]
        else []
      | _ => []
    else []
  let c3 :=
    let phist := takeLast 5 ph.parity
    if 3 ≤ phist.length then
      match phist.reverse with
      | [] => []
      | lastp :: restr =>
        if 3 ≤ 1 + countWhileEq lastp restr then
          [Cycle.parity_break (takeLast 3 phist) lastp
            (if lastp = .even then .odd else .even)]
        else []
    else []
  c1 ++ c2 ++ c3

/-- A block condition string (`"color_exhausted"`, `"parity_exhausted"`, or
`"{prop}_unconfirmed"`). -/
inductive BlockTag
  | color_exhausted
  | parity_exhausted
  | unconfirmed (prop : PropName)
deriving DecidableEq, Repr

/-- Python `set.add`. -/
def addTag (s : List BlockTag) (t : BlockTag) : List BlockTag :=
  if t ∈ s then s else s ++ [t]

/-- `len(set(l)) == 1` for a nonempty list. -/
def allEq {V : Type} [DecidableEq V] : List V → Bool
  | [] => true
  | x :: rest => rest.all fun y => y = x

/-- `PatternMaster.check_block_conditions`: the rebuilt block set together
with the number of `blocks_triggered` increments.  The `pattern_cache` values
are exactly the confirmed patterns in detection order. -/
def check_block_conditions (ph : PropHistory) (patterns : List MPattern) :
    List BlockTag × ℕ :=
  let s0 : List BlockTag × ℕ := ([], 0)
  let s1 :=
    let hc := takeLast 4 ph.color
    if hc.length = 4 ∧ allEq hc then (addTag s0.1 .color_exhausted, s0.2 + 1) else s0
  let s2 :=
    let hp := takeLast 4 ph.parity
    if hp.length = 4 ∧ allEq hp then (addTag s1.1 .parity_exhausted, s1.2 + 1) else s1
  patterns.foldl
    (fun acc p =>
      if p.ptype = .alternation ∧ p.confidence < 0.5 then
        (addTag acc.1 (.unconfirmed p.propName), acc.2 + 1)
      else acc)
    s2

/-- `PatternMaster._is_blocked` (the substring checks
`'color_exhausted' in block` / `'parity_exhausted' in block` match exactly the
corresponding tags). -/
def is_blocked (tags : List BlockTag) (num : ℤ) : Bool :=
  let props := get_all_properties num
  tags.any fun t =>
    match t with
    | .color_exhausted => props.color = .red ∨ props.color = .black
    | .parity_exhausted => props.parity = .even ∨ props.parity = .odd
    | .unconfirmed _ => false

/-- `[1, ..., 36]` (`range(1, 37)`). -/
def nums136 : List ℤ := (List.range 36).map fun k => (k : ℤ) + 1

/-- The `next_value` selection of `_get_numbers_for_pattern` for alternation
and repetition patterns. -/
def nextValue {V : Type} (p : PropertyPattern V) : Option V :=
  match p.pattern_type with
  | .alternation =>
    if p.pattern.length % 2 = 0 then p.pattern.head? else p.pattern.getLast?
  | .repetition => p.pattern.head?
  | .progression => none

/-- `next_value` including the progression case (dozen/column only). -/
def nextValueInt (p : PropertyPattern ℤ) : Option ℤ :=
  match p.pattern_type with
  | .progression =>
    if p.pattern = [1, 2, 3] then some 1
    else if p.pattern = [3, 2, 1] then some 3
    else p.pattern.getLast?
  | _ => nextValue p

/-- `PatternMaster._get_numbers_for_pattern`. -/
def get_numbers_for_pattern : MPattern → List ℤ
  | .dozen p =>
    match nextValueInt p with
    | some v => nums136.filter fun n => get_dozen n = v
    | none => []
  | .column p =>
    match nextValueInt p with
    | some v => nums136.filter fun n => get_column n = v
    | none => []
  | .color p =>
    match nextValue p with
    | some .red => RED_NUMBERS
    | some .black => BLACK_NUMBERS
    | _ => []
  | .parity p =>
    match nextValue p with
    | some v => nums136.filter fun n => get_parity n = v
    | none => []
  | .range p =>
    match nextValue p with
    | some .low => (List.range 18).map fun k => (k : ℤ) + 1
    | some .high => (List.range 18).map fun k => (k : ℤ) + 19
    | _ => []
  | .group p =>
    match nextValue p with
    | some .voisins => VOISINS_M
    | some .tiers => TIERS_M
    | some .orphelins => ORPHELINS_M
    | _ => []
  | .combined p =>
    match nextValue p with
    | some (.comb d e) => get_numbers_by_combined d e
    | _ => []

/-- `PatternMaster._get_numbers_for_cycle`. -/
def get_numbers_for_cycle : Cycle → List ℤ
  | .dozen_complete _ next => nums136.filter fun n => get_dozen n = next
  | .binary_color _ _ next =>
    if next = .red then RED_NUMBERS
    else if next = .black then BLACK_NUMBERS
    else []
  | .parity_break _ _ next =>
    nums136.filter fun n => get_parity n = next ∧ get_dozen n = 1

/-- `PatternMaster.generate_candidates`: pattern weights, cycle weights
(`0.8` completed / `0.5` otherwise), the confluence multiplier
`*= (1 + count*0.2)` for numbers backed by at least two properties (a Python
`defaultdict` `*=`, which materializes a `0.0` entry for a number all of whose
additive contributions were blocked), and the zero-protection entry `0.1`.
Returns the candidate map and the number of `confluences_found` increments. -/
def generate_candidates (patterns : List MPattern) (cycles : List Cycle)
    (tags : List BlockTag) : Dict ℤ ℚ × ℕ :=
  let cands := patterns.foldl
    (fun cs p =>
      (get_numbers_for_pattern p).foldl
        (fun cs2 num => if ¬ is_blocked tags num then dadd cs2 num p.confidence else cs2)
        cs)
    []
  let cands := cycles.foldl
    (fun cs cyc =>
      if cyc.nextTruthy then
        let weight : ℚ := if cyc.completed then 0.8 else 0.5
        (get_numbers_for_cycle cyc).foldl
          (fun cs2 num => if ¬ is_blocked tags num then dadd cs2 num weight else cs2)
          cs
      else cs)
    cands
  let confluences := patterns.foldl
    (fun cf p => (get_numbers_for_pattern p).foldl (fun cf2 num => daddNat cf2 num 1) cf)
    []
  let cands := confluences.foldl
    (fun cs nc => if 2 ≤ nc.2 then dmul cs nc.1 (1 + (nc.2 : ℚ) * 0.2) else cs)
    cands
  let cands := if ¬ dmem cands 0 then dset cands 0 0.1 else cands
  (cands, (confluences.filter fun nc => 2 ≤ nc.2).length)

/-- The mutable `stats` dictionary of a `PatternMaster` instance. -/
structure Stats where
  patterns_detected : ℕ
  cycles_completed : ℕ
  blocks_triggered : ℕ
  confluences_found : ℕ
deriving DecidableEq, Repr

/-- A fresh instance's statistics. -/
def initStats : Stats := ⟨0, 0, 0, 0⟩

/-- The success metadata of `PatternMaster.analyze` (numeric fields and the
strongest pattern; the `reason` string is not modelled). -/
structure Meta where
  patterns_detected : ℕ
  cycles_active : ℕ
  blocks_active : ℕ
  confluences : ℕ
  strongest : Option MPattern
deriving DecidableEq, Repr

/-- `analyze` metadata: the invalid-history error, the no-confluence reason,
or the success metadata. -/
inductive ResultMeta
  | invalid
  | noConfluence
  | success (m : Meta)
deriving DecidableEq, Repr

/-- The `PatternResult` of `PatternMaster.analyze`. -/
structure Result where
  candidatos : List ℤ
  scores : Dict ℤ ℚ
  meta : ResultMeta
deriving DecidableEq, Repr

/-- `PatternMaster._get_strongest_pattern` (Python `max`: the first maximal
element under `confidence * occurrences`). -/
def strongest_pattern (patterns : List MPattern) : Option MPattern :=
  match patterns with
  | [] => none
  | p :: rest =>
    some (rest.foldl
      (fun best q =>
        if best.confidence * (best.occurrences : ℚ) < q.confidence * (q.occurrences : ℚ)
        then q else best)
      p)

/-- Everything the valid-history branch of `PatternMaster.analyze` computes
from the history alone (no part of it reads `stats`). -/
structure CoreOut where
  empty : Bool
  candidatos : List ℤ
  scores : Dict ℤ ℚ
  patterns_len : ℕ
  cycles_len : ℕ
  cycles_completed : ℕ
  blocks_len : ℕ
  blocks_inc : ℕ
  confl_inc : ℕ
  strongest : Option MPattern
deriving DecidableEq, Repr

/-- The stats-independent body of `PatternMaster.analyze` on a valid history:
reverse, process properties, detect patterns and cycles, rebuild the block
conditions, generate candidates, normalize, rank, and apply the
zero-protection append (which the final `[:6]` slice undoes whenever six
candidates already exist). -/
def analyze_core (history : List ℤ) : CoreOut :=
  let ph := process_properties history.reverse
  let patterns := detect_property_patterns ph
  let cycles := detect_cycles ph
  let tb := check_block_conditions ph patterns
  let gc := generate_candidates patterns cycles tb.1
  let scores := normalize_scores gc.1
  let sorted_candidates := sortedDesc Prod.snd scores
  let top_candidates := (sorted_candidates.take 6).map Prod.fst
  let top_candidates :=
    if (0 : ℤ) ∉ top_candidates then top_candidates ++ [0] else top_candidates
  { empty := gc.1.isEmpty
    candidatos := top_candidates.take 6
    scores := scores
    patterns_len := patterns.length
    cycles_len := cycles.length
    cycles_completed := (cycles.filter fun c : Cycle => c.completed).length
    blocks_len := tb.1.length
    blocks_inc := tb.2
    confl_inc := gc.2
    strongest := strongest_pattern patterns }

/-- `PatternMaster.analyze` with the default configuration, threading the
mutable `stats` explicitly (the returned pair is result and updated stats).
`patterns_detected`/`cycles_completed` are overwritten each call;
`blocks_triggered`/`confluences_found` accumulate across calls, and the
metadata `confluences` field exposes the *cumulative* counter. -/
def analyze (stats : Stats) (history : List ℤ) : Result × Stats :=
  if ¬ validate_history history 5 then
    (⟨[], [], .invalid⟩, stats)
  else
    let c := analyze_core history
    let stats4 : Stats :=
      { patterns_detected := c.patterns_len
        cycles_completed := c.cycles_completed
        blocks_triggered := stats.blocks_triggered + c.blocks_inc
        confluences_found := stats.confluences_found + c.confl_inc }
    if c.empty then
      (⟨[], [], .noConfluence⟩, stats4)
    else
      (⟨c.candidatos, c.scores,
        .success ⟨c.patterns_len, c.cycles_len, c.blocks_len,
                  stats4.confluences_found, c.strongest⟩⟩,
       stats4)

/-- The metadata with the cumulative confluence counter masked out (used to
state that everything else is call-independent). -/
def ResultMeta.modConfluences : ResultMeta → ResultMeta
  | .success m => .success { m with confluences := 0 }
  | m => m

end Master

/-! ## `src/patterns/puxadas.py` — `PuxadasPattern`

The trigger-based matcher over the precomputed pull-statistics JSON
(`dados_puxadas`, passed in here as data).  `PatternResult` is a dataclass
with four *required* fields (`candidatos`, `scores`, `metadata`,
`pattern_name`); the three early-return branches of `analyze` construct it
with only `scores=` and `metadata=`, so executing any of them raises
`TypeError: missing 2 required positional arguments` — modelled as
`Except.error PyError.typeError`.  The JSON entries are modelled with
required `numero`/`lift`/`prob` fields (the schema of the shipped data file),
so the `.get` defaults never fire. -/

namespace Puxadas

/-- A Python exception escaping `analyze`. -/
inductive PyError
  | typeError
deriving DecidableEq, Repr

/-- One entry of an `top_puxados` list in the JSON. -/
structure Puxado where
  numero : ℤ
  lift : ℚ
  prob : ℚ
deriving DecidableEq, Repr

/-- The `PuxadasPattern` configuration (defaults from `__init__`). -/
structure Config where
  top_n : ℕ
  peso_decaimento : ℚ
  min_lift : ℚ
  usar_prob : Bool

/-- The default configuration. -/
def defaultConfig : Config :=
  { top_n := 18, peso_decaimento := 0.9, min_lift := 0.2, usar_prob := false }

/-- `PuxadasPattern._get_puxados`: the `min_lift` filter result is computed
and then *discarded* — the source returns the unfiltered `top_puxados[:top_n]`. -/
def get_puxados (cfg : Config) (dados : Dict ℤ (List Puxado)) (numero_gatilho : ℤ) :
    List Puxado :=
  match dget dados numero_gatilho with
  | none => []
  | some top_puxados =>
    let _puxados_filtrados := top_puxados.filter fun p => cfg.min_lift ≤ p.lift
    top_puxados.take cfg.top_n

/-- The success metadata of `PuxadasPattern.analyze` (the config echo is
omitted). -/
structure Meta where
  numero_gatilho : ℤ
  puxados_encontrados : ℕ
  top_3_puxados : List ℤ
  lifts_top_3 : List ℚ
  usar_prob : Bool
deriving DecidableEq, Repr

/-- The fully constructed `PatternResult` of the success path
(`pattern_name='PUXADAS'` constant omitted). -/
structure Result where
  candidatos : List ℤ
  scores : Dict ℤ ℚ
  meta : Meta
deriving DecidableEq, Repr

/-- `PuxadasPattern.analyze`.  The insufficient-history, data-not-loaded and
no-pull branches each construct `PatternResult(scores={}, metadata=...)`,
omitting the required `candidatos` and `pattern_name` dataclass fields, which
raises `TypeError` instead of returning — hence `Except.error`. -/
def analyze (cfg : Config) (dados : Dict ℤ (List Puxado)) (historico : List ℤ) :
    Except PyError Result :=
  if historico.isEmpty ∨ historico.length < 1 then
    .error .typeError
  else if dados.isEmpty then
    .error .typeError
  else
    let numero_gatilho := historico.headD 0
    let puxados := get_puxados cfg dados numero_gatilho
    if puxados.isEmpty then
      .error .typeError
    else
      let scores := puxados.enum.foldl
        (fun sc ip =>
          let score_base :=
            if cfg.usar_prob then ip.2.prob / 100 else ip.2.lift
          dset sc ip.2.numero (score_base * cfg.peso_decaimento ^ ip.1))
        []
      let scores :=
        if ¬ scores.isEmpty then
          let max_score := listMax (scores.map Prod.snd)
          if 0 < max_score then scores.map fun p => (p.1, p.2 / max_score)
          else scores
        else scores
      .ok
        { candidatos := puxados.map fun p => p.numero
          scores := scores
          meta :=
            { numero_gatilho := numero_gatilho
              puxados_encontrados := puxados.length
              top_3_puxados := (puxados.take 3).map fun p => p.numero
              lifts_top_3 := (puxados.take 3).map fun p => p.lift
              usar_prob := cfg.usar_prob } }

end Puxadas

/-! ## `src/patterns/validacao_ancoras.py` — `ValidadorMultiplasAncoras`

The consensus validator.  The verdict dictionary's keys that exist only on
the full branch are `Option` fields (`none` = key absent).  Python `max(set,
key=count)` resolves count ties by set-iteration order; here ties resolve by
first occurrence in the list — no settled claim depends on a tie.  The
`metadados_padroes` nested dicts are flattened to the fields the validator
reads (with presence flags for the per-pattern sub-dicts). -/

namespace Validacao

/-- `score_terminal` (2.0). -/
def score_terminal : ℚ := 2

/-- `score_vizinho` (1.5). -/
def score_vizinho : ℚ := 1.5

/-- `min_confluencia` (1.5). -/
def min_confluencia : ℚ := 1.5

/-- `boost_confluencia` (1.5). -/
def boost_confluencia : ℚ := 1.5

/-- `estrutura['tipo']`. -/
inductive TipoEstrutura
  | repeticao_quebra | alternancia | crescente | heuristica
deriving DecidableEq, Repr

/-- The narrative structure `_identificar_estrutura` returns. -/
structure Estrutura where
  inicio : Option ℤ
  desenvolvimento : List ℤ
  quebra : Option ℤ
  tipo : TipoEstrutura
deriving DecidableEq, Repr

/-- `max(set(l), key=l.count)` with ties by first occurrence. -/
def maxByCount (l : List ℤ) : ℤ :=
  let uniq := l.foldl (fun acc x => if x ∈ acc then acc else acc ++ [x]) []
  match uniq with
  | [] => 0
  | u :: rest => rest.foldl (fun best v => if l.count best < l.count v then v else best) u

/-- The repetition-then-break search (first loop of `_identificar_estrutura`):
first window index `i ∈ [2, min(len-3, 15))` whose 3-number window has a
terminal occurring at least twice, paired with the first break index `j`
scanning `i-1` down to `0` whose number is neither of the dominant terminal
nor a wheel neighbour of a window member. -/
def findRepeticao (h : List ℤ) : Option Estrutura :=
  ((List.range (min (h.length - 3) 15)).drop 2).findSome? fun i =>
    let janela := (h.drop i).take 3
    let terminais := janela.map get_terminal
    let terminal_dominante := maxByCount terminais
    if 2 ≤ terminais.count terminal_dominante then
      (List.range i).reverse.findSome? fun j =>
        let num_quebra := h.getD j 0
        let term_quebra := get_terminal num_quebra
        let eh_vizinho := janela.any fun num_dev => num_quebra ∈ get_vizinhos num_dev 1
        if term_quebra ≠ terminal_dominante ∧ ¬ eh_vizinho then
          some ⟨some (h.getD (i + 2) 0), janela, some num_quebra, .repeticao_quebra⟩
        else none
    else none

/-- The alternation search (`ABAB` over terminals; the Python
`len(set)==2` + both orders check is equivalent to `[a,b,a,b]` with
`a ≠ b`). -/
def findAlternancia (h : List ℤ) : Option Estrutura :=
  (List.range (h.length - 4)).findSome? fun i =>
    let seq := (h.drop i).take 4
    let terminais := seq.map get_terminal
    if terminais.getD 0 99 ≠ terminais.getD 1 99
        ∧ terminais.getD 2 99 = terminais.getD 0 99
        ∧ terminais.getD 3 99 = terminais.getD 1 99 then
      some ⟨some (seq.getD 3 0), (seq.drop 1).take 2, some (seq.getD 0 0), .alternancia⟩
    else none

/-- The ascending-run search.  Python continues the scan when the would-be
break value is `0` or the run starts at index `0` (`if estrutura['quebra']:`
falsy check). -/
def findCrescente (h : List ℤ) : Option Estrutura :=
  (List.range (h.length - 3)).findSome? fun i =>
    let a := h.getD (i + 2) 0
    let b := h.getD (i + 1) 0
    let c := h.getD i 0
    if b = a + 1 ∧ c = b + 1 then
      if 0 < i ∧ h.getD (i - 1) 0 ≠ 0 then
        some ⟨some a, [a, b, c], some (h.getD (i - 1) 0), .crescente⟩
      else none
    else none

/-- `ValidadorMultiplasAncoras._identificar_estrutura`: repetition-break,
then alternation, then ascending run, then the simple heuristic, which always
fires for a history of at least 7 numbers — so with the length-10 guard the
only `None` case is a history shorter than 10. -/
def identificar_estrutura (historico : List ℤ) : Option Estrutura :=
  if historico.length < 10 then none
  else
    match findRepeticao historico with
    | some e => some e
    | none =>
      match findAlternancia historico with
      | some e => some e
      | none =>
        match findCrescente historico with
        | some e => some e
        | none =>
          if 7 ≤ historico.length then
            some ⟨some (historico.getD 6 0), (historico.drop 3).take 3,
                  some (historico.getD 0 0), .heuristica⟩
          else none

/-- `ValidadorMultiplasAncoras._confirmar_ancora`: T-vs-V scores by terminal
from the 2-3 numbers following each of the anchor's first two occurrences at
index ≥ 10, plus the anchor's own terminal and neighbour contribution. -/
def confirmar_ancora (ancora : Option ℤ) (historico : List ℤ) : Dict ℤ ℚ :=
  match ancora with
  | none => []
  | some anc =>
    let st := (List.range' 10 (min historico.length 200 - 10)).foldl
      (fun (st : Dict ℤ ℚ × ℕ) i =>
        if historico.getD i 0 = anc ∧ st.2 < 2 then
          let d := (Estelar.range1 (min 4 (historico.length - i))).foldl
            (fun d j =>
              let num_puxado := historico.getD (i - j) 0
              let terminal_puxado := get_terminal num_puxado
              let d := dadd d terminal_puxado score_terminal
              (get_vizinhos num_puxado 1).foldl
                (fun d2 viz =>
                  let terminal_viz := get_terminal viz
                  if terminal_viz ≠ terminal_puxado then
                    dadd d2 terminal_viz score_vizinho
                  else d2)
                d)
            st.1
          (d, st.2 + 1)
        else st)
      ([], 0)
    let d := dadd st.1 (get_terminal anc) (score_terminal * 0.5)
    (get_vizinhos anc 1).foldl
      (fun d2 viz => dadd d2 (get_terminal viz) (score_vizinho * 0.5))
      d

/-- `tipo_confluencia`. -/
inductive TipoConf
  | tripla | muito_forte | forte | moderada | fraca
deriving DecidableEq, Repr

/-- The confluence record `_verificar_confluencia` returns. -/
structure Confluencia where
  tem_confluencia : Bool
  terminais_confluentes : List ℤ
  score_confluencia : ℚ
  tipo_confluencia : Option TipoConf
deriving DecidableEq, Repr

/-- `ValidadorMultiplasAncoras._verificar_confluencia`.  The common-terminal
set is traversed in the start-confirmation's insertion order; the `tripla`
label is always overwritten by the strength classification afterwards, as in
the source. -/
def verificar_confluencia (confirmacao_inicio confirmacao_quebra : Dict ℤ ℚ)
    (desenvolvimento : List ℤ) : Confluencia :=
  if confirmacao_inicio.isEmpty ∨ confirmacao_quebra.isEmpty then
    ⟨false, [], 0, none⟩
  else
    let terminais_comuns :=
      (confirmacao_inicio.map Prod.fst).filter fun t => dmem confirmacao_quebra t
    let cs := terminais_comuns.foldl
      (fun (cs : List ℤ × ℚ) terminal =>
        let score_total := (dget confirmacao_inicio terminal).getD 0
          + (dget confirmacao_quebra terminal).getD 0
        if min_confluencia ≤ score_total then
          (cs.1 ++ [terminal], max cs.2 score_total)
        else cs)
      ([], 0)
    let st :=
      if ¬ desenvolvimento.isEmpty then
        let terminal_dominante_dev := maxByCount (desenvolvimento.map get_terminal)
        if terminal_dominante_dev ∈ cs.1 then
          (cs.2 * 1.2, some TipoConf.tripla)
        else (cs.2, (none : Option TipoConf))
      else (cs.2, none)
    if ¬ cs.1.isEmpty then
      ⟨true, cs.1, st.1,
        some (if 4 ≤ st.1 then .muito_forte
              else if 3 ≤ st.1 then .forte
              else if 2 ≤ st.1 then .moderada
              else .fraca)⟩
    else ⟨false, cs.1, st.1, st.2⟩

/-- One name in `padroes_confluentes`. -/
inductive Padrao
  | master | estelar | chain | comportamentos
deriving DecidableEq, Repr

/-- The fields of `metadados_padroes` the validator reads, flattened, with a
presence flag per pattern sub-dict. -/
structure MetaPadroes where
  master_present : Bool
  master_padroes_encontrados : ℤ
  estelar_present : Bool
  estelar_padroes_equivalentes : ℤ
  chain_present : Bool
  chain_compensacoes_detectadas : ℤ
  comportamentos_present : Bool
  comp_alternancia_tripla : Bool
  comp_cavalos_incompletos : Bool
  comp_repeticoes_duplas : ℤ
  comp_cavalos_confirmacao_vizinho : Bool
  comp_nivel_confianca : ℚ
deriving DecidableEq, Repr

/-- A `metadados_padroes` with no pattern sub-dicts. -/
def emptyMeta : MetaPadroes := ⟨false, 0, false, 0, false, 0, false, false, false, 0, false, 0⟩

/-- `ValidadorMultiplasAncoras._identificar_padroes_confluentes`. -/
def identificar_padroes_confluentes (meta : MetaPadroes)
    (terminais_confluentes : List ℤ) : List Padrao :=
  if terminais_confluentes.isEmpty then []
  else
    (if meta.master_present ∧ 3 < meta.master_padroes_encontrados then
      [Padrao.master] else []) ++
    (if meta.estelar_present ∧ 2 < meta.estelar_padroes_equivalentes then
      [Padrao.estelar] else []) ++
    (if meta.chain_present ∧ 0 < meta.chain_compensacoes_detectadas then
      [Padrao.chain] else []) ++
    (if meta.comportamentos_present
        ∧ (meta.comp_alternancia_tripla ∨ meta.comp_cavalos_incompletos) then
      [Padrao.comportamentos] else [])

/-- `ValidadorMultiplasAncoras._calcular_forca_validacao`. -/
def calcular_forca_validacao (c : Confluencia) (num_validados num_padroes : ℕ) : ℚ :=
  let forca : ℚ := 0
  let forca :=
    if c.tem_confluencia then
      forca + (match c.tipo_confluencia with
        | some .muito_forte => 0.4
        | some .forte => 0.3
        | some .moderada => 0.2
        | _ => 0.1)
    else forca
  let forca := forca +
    (if 5 ≤ num_validados then 0.3
     else if 3 ≤ num_validados then 0.2
     else if 1 ≤ num_validados then 0.1 else 0)
  let forca := forca +
    (if 4 ≤ num_padroes then 0.3
     else if 3 ≤ num_padroes then 0.2
     else if 2 ≤ num_padroes then 0.1
     else if 1 ≤ num_padroes then 0.05 else 0)
  min forca 1

/-- `ValidadorMultiplasAncoras._tem_comportamentos_fortes`. -/
def tem_comportamentos_fortes (meta : MetaPadroes) : Bool :=
  if ¬ meta.comportamentos_present then false
  else if meta.comp_alternancia_tripla then true
  else if 2 ≤ meta.comp_repeticoes_duplas then true
  else if meta.comp_cavalos_incompletos ∧ meta.comp_cavalos_confirmacao_vizinho then true
  else if 0.7 ≤ meta.comp_nivel_confianca then true
  else false

/-- The verdict dictionary of `validar_sinal`: `Option` fields are the keys
that the early no-structure return leaves out entirely. -/
structure Verdict where
  confluencia_detectada : Bool
  estrutura_identificada : Bool
  estrutura : Option Estrutura
  ancora_inicio : Option ℤ
  ancora_quebra : Option ℤ
  confirmacao_inicio : Option (Dict ℤ ℚ)
  confirmacao_quebra : Option (Dict ℤ ℚ)
  terminais_confluentes : Option (List ℤ)
  numeros_validados : Option (List ℤ)
  numeros_invalidados : Option (List ℤ)
  padroes_confluentes : Option (List Padrao)
  boost_multiplicador : Option ℚ
  forca_validacao : Option ℚ
  comportamentos_fortes : Option Bool
deriving DecidableEq, Repr

/-- `ValidadorMultiplasAncoras.validar_sinal`.  `numeros_invalidados` is
initialized to `[]` and never appended to; the early branch returns only
`confluencia_detectada=False, estrutura_identificada=False` (every other key
absent — in particular there is no multiplier key, and no penalty multiplier
exists anywhere in the class). -/
def validar_sinal (candidatos : Dict ℤ ℚ) (historico : List ℤ)
    (meta : MetaPadroes) : Verdict :=
  match identificar_estrutura (historico.take 30) with
  | none =>
    ⟨false, false, none, none, none, none, none, none, none, none, none, none,
     none, none⟩
  | some estrutura =>
    let ancora_inicio := estrutura.inicio
    let ancora_quebra := estrutura.quebra
    let confirmacao_inicio := confirmar_ancora ancora_inicio historico
    let confirmacao_quebra := confirmar_ancora ancora_quebra historico
    let confluencia := verificar_confluencia confirmacao_inicio confirmacao_quebra
      estrutura.desenvolvimento
    let numeros_validados := (candidatos.map Prod.fst).filter fun num =>
      let terminal := get_terminal num
      ¬ confluencia.terminais_confluentes.isEmpty
      ∧ (terminal ∈ confluencia.terminais_confluentes
         ∨ confluencia.terminais_confluentes.any fun t =>
             (((List.range 37).map fun k => (k : ℤ)).filter fun n =>
               get_terminal n = t).any fun nt => num ∈ get_vizinhos nt 1)
    let numeros_invalidados : List ℤ := []
    let padroes_confluentes :=
      identificar_padroes_confluentes meta confluencia.terminais_confluentes
    let forca_validacao := calcular_forca_validacao confluencia
      numeros_validados.length padroes_confluentes.length
    ⟨confluencia.tem_confluencia, true, some estrutura, ancora_inicio,
     ancora_quebra, some confirmacao_inicio, some confirmacao_quebra,
     some confluencia.terminais_confluentes, some numeros_validados,
     some numeros_invalidados, some padroes_confluentes,
     some (if confluencia.tem_confluencia then boost_confluencia else 1),
     some forca_validacao, some (tem_comportamentos_fortes meta)⟩

/-- `aplicar_validacao_ancoras` (`routes/sugestao-1.py`): boost every
validated number when confluence was detected, then halve every invalidated
number — reading each verdict key with the consumer's `.get` defaults. -/
def aplicar_validacao_ancoras (scores_ensemble : Dict ℤ ℚ) (numeros : List ℤ)
    (meta : MetaPadroes) : Dict ℤ ℚ × Verdict :=
  let validacao := validar_sinal scores_ensemble numeros meta
  let scores_ajustados := scores_ensemble
  let scores_ajustados :=
    if validacao.confluencia_detectada then
      let boost := validacao.boost_multiplicador.getD 1.5
      (validacao.numeros_validados.getD []).foldl
        (fun sc num => if dmem sc num then dmul sc num boost else sc)
        scores_ajustados
    else scores_ajustados
  let scores_ajustados :=
    (validacao.numeros_invalidados.getD []).foldl
      (fun sc num => if dmem sc num then dmul sc num 0.5 else sc)
      scores_ajustados
  (scores_ajustados, validacao)

end Validacao

/-! ## `src/patterns/master_original_backup.py` — `MasterPattern`

The exact-recurrence matcher.  `_buscar_padroes_exatos` is embedded with the
temporal weight abstracted as `w posicao total` (the source computes
`decay_factor ** (posicao / total)`, an irrational real; every statement below
holds for *every* weight function, so the abstraction loses nothing).  The
`janelas_analisadas` metadata counter is not modelled. -/

namespace MasterBackup

/-- `MasterPattern._buscar_padroes_exatos`: match the current window
`history[:janela_size]` in `history[janela_size:]`; for each occurrence at
real index `idx_real`, when `idx_real + 1 < len(history)` add the temporal
weight to the score of `history[idx_real + 1]` — note this indexes one step
*older* (into the matched window), not the chronological successor
`history[idx_real - 1]`.  Returns the updated scores and
`padroes_encontrados`. -/
def buscar_padroes_exatos (history : List ℤ) (janela_size min_support : ℕ)
    (w : ℕ → ℕ → ℚ) (scores : Dict ℤ ℚ) : Dict ℤ ℚ × ℕ :=
  if history.length < janela_size then (scores, 0)
  else
    let sequencia_atual := history.take janela_size
    let ocorrencias := encontrar_sequencia (history.drop janela_size) sequencia_atual
    if ocorrencias.length < min_support then (scores, 0)
    else
      ocorrencias.foldl
        (fun (st : Dict ℤ ℚ × ℕ) idx_ocorrencia =>
          let idx_real := idx_ocorrencia + janela_size
          if idx_real + 1 < history.length then
            let numero_seguinte := history.getD (idx_real + 1) 0
            let peso := w idx_real history.length
            (dadd st.1 numero_seguinte peso, st.2 + 1)
          else st)
        (scores, 0)

end MasterBackup

/-! ## `src/routes/sugestao.py` — the ensemble combiner

`calcular_ensemble` combines the matcher score maps with normalized weights
and max-scales; the route then ranks with
`sorted(scores.items(), key=lambda x: x[1], reverse=True)` — a stable sort on
the score alone.  (The chain/temporal metadata reads at the top of
`calcular_ensemble` are dead: the variables are never used.  Python would
raise `ZeroDivisionError` when all four weights sum to `0`; the rational
model yields `0/0 = 0` there — no claim depends on that input.) -/

namespace Ensemble

/-- `calcular_ensemble` (`routes/sugestao.py`): normalize the four weights to
sum `1`, accumulate `weight * score` per matcher in order master, estelar,
chain, temporal into a `defaultdict(float)`, then max-scale when the maximum
is positive. -/
def calcular_ensemble (resultado_master resultado_estelar resultado_chain
    temporal_candidates : Dict ℤ ℚ)
    (w_master w_estelar w_chain w_temporal : ℚ) : Dict ℤ ℚ :=
  let total_peso := w_master + w_estelar + w_chain + w_temporal
  let wm := w_master / total_peso
  let we := w_estelar / total_peso
  let wc := w_chain / total_peso
  let wt := w_temporal / total_peso
  let sc := resultado_master.foldl (fun d p => dadd d p.1 (wm * p.2)) []
  let sc := resultado_estelar.foldl (fun d p => dadd d p.1 (we * p.2)) sc
  let sc := resultado_chain.foldl (fun d p => dadd d p.1 (wc * p.2)) sc
  let sc := temporal_candidates.foldl (fun d p => dadd d p.1 (wt * p.2)) sc
  if ¬ sc.isEmpty then
    let max_score := listMax (sc.map Prod.snd)
    if 0 < max_score then sc.map fun p => (p.1, p.2 / max_score) else sc
  else sc

/-- The route's ranking: `sorted(scores_ensemble.items(), key=lambda x: x[1],
reverse=True)` — descending by score only, stable, with no further key. -/
def candidatos_ordenados (scores : Dict ℤ ℚ) : List (ℤ × ℚ) :=
  sortedDesc Prod.snd scores

end Ensemble

/-! ## Facts about `sortedDesc` and folds -/

/-- A fold preserves any invariant its step function preserves. -/
lemma foldl_invariant {α β : Type} (step : β → α → β) (inv : β → Prop)
    (hstep : ∀ b a, inv b → inv (step b a)) :
    ∀ (l : List α) (b : β), inv b → inv (l.foldl step b) := by
  intro l
  induction l with
  | nil => intro b hb; exact hb
  | cons a rest ih => intro b hb; exact ih _ (hstep b a hb)

theorem insertDesc_perm {α : Type} (key : α → ℚ) (x : α) :
    ∀ l : List α, List.Perm (insertDesc key x l) (x :: l) := by
  intro l
  induction l with
  | nil => exact List.Perm.refl _
  | cons y rest ih =>
    unfold insertDesc
    by_cases hxy : key x ≤ key y
    · rw [if_pos hxy]
      exact List.Perm.trans (List.Perm.cons y ih) (List.Perm.swap x y rest)
    · rw [if_neg hxy]

theorem sortedDesc_perm {α : Type} (key : α → ℚ) :
    ∀ (l acc : List α),
      List.Perm (l.foldl (fun acc x => insertDesc key x acc) acc) (acc ++ l) := by
  intro l
  induction l with
  | nil => intro acc; simp
  | cons x rest ih =>
    intro acc
    have h1 := ih (insertDesc key x acc)
    have h2 : List.Perm (insertDesc key x acc ++ rest) ((x :: acc) ++ rest) :=
      (insertDesc_perm key x acc).append_right rest
    have h3 : List.Perm ((x :: acc) ++ rest) (acc ++ x :: rest) :=
      List.perm_middle.symm
    exact (h1.trans h2).trans h3

theorem sortedDesc_is_perm {α : Type} (key : α → ℚ) (l : List α) :
    List.Perm (sortedDesc key l) l :=
  sortedDesc_perm key l []

theorem insertDesc_pairwise {α : Type} (key : α → ℚ) (x : α) :
    ∀ l : List α, l.Pairwise (fun a b => key b ≤ key a) →
      (insertDesc key x l).Pairwise (fun a b => key b ≤ key a) := by
  intro l
  induction l with
  | nil => intro _; exact List.pairwise_singleton _ _
  | cons y rest ih =>
    intro hl
    rw [List.pairwise_cons] at hl
    unfold insertDesc
    by_cases hxy : key x ≤ key y
    · rw [if_pos hxy]
      rw [List.pairwise_cons]
      constructor
      · intro a ha
        have ha2 : a ∈ x :: rest := (insertDesc_perm key x rest).mem_iff.mp ha
        rcases List.mem_cons.mp ha2 with h | h
        · subst h; exact hxy
        · exact hl.1 a h
      · exact ih hl.2
    · rw [if_neg hxy]
      rw [List.pairwise_cons]
      constructor
      · intro a ha
        rcases List.mem_cons.mp ha with h | h
        · subst h; exact le_of_lt (lt_of_not_le hxy)
        · exact le_trans (hl.1 a h) (le_of_lt (lt_of_not_le hxy))
      · exact List.pairwise_cons.mpr hl

theorem sortedDesc_pairwise {α : Type} (key : α → ℚ) (l : List α) :
    (sortedDesc key l).Pairwise (fun a b => key b ≤ key a) := by
  unfold sortedDesc
  refine foldl_invariant _ (fun acc : List α =>
    acc.Pairwise (fun a b => key b ≤ key a)) ?_ _ _ ?_
  · intro acc x hacc
    exact insertDesc_pairwise key x acc hacc
  · exact List.Pairwise.nil

/-! ## Claim C1 -/


/-- A `PatternEstelar` configuration in which only the `EXACT` equivalence is
active: the `NEIGHBOR`/`TERMINAL`/`MIRROR` weights are `0` and inversions are
disabled (all documented configuration options of `PatternEstelar.__init__`). -/
def estelarExactOnlyConfig : Estelar.Config :=
  { Estelar.defaultConfig with
      wNEIGHBOR := 0
      wTERMINAL := 0
      wMIRROR := 0
      enable_inversions := false }

/-- A valid history (most recent first, all values in `[0, 36]`, length 19) on
which `PatternEstelar.analyze` returns a *nonempty all-zero* score map: the
best resonance is the trinca `(33, 33, 0)` whose first two elements occur in
the recent window only at its oldest slot, so `recency = 0`, every candidate
score is `0`, the zero-protection branch is skipped because `0` is already a
key, and `normalize_scores` returns the all-zero map unchanged. -/
def estelarAllZeroHistory : List ℤ :=
  [9, 8, 7, 6, 5, 4, 3, 2, 1, 33, 12, 11, 10, 0, 33, 33, 0, 33, 33]

set_option maxRecDepth 100000 in
attribute [local semireducible] Rat.mul Rat.add Rat.sub Rat.inv Rat.ofScientific in
/-- C1, counterexample.  The claim states that for every history of integers
in `[0, 36]` accepted by a matcher, the returned score map is either empty or
has maximum exactly `1.0`.  On `estelarAllZeroHistory` — which
`validate_history` accepts — the equivalence matcher returns the nonempty
score map `{0: 0.0, 32: 0.0, 26: 0.0}`, whose maximum is `0`, not `1.0`. -/
theorem C1_counterexample :
    validate_history estelarAllZeroHistory 10 = true ∧
    (Estelar.analyze estelarExactOnlyConfig estelarAllZeroHistory).scores ≠ [] ∧
    listMax (((Estelar.analyze estelarExactOnlyConfig
      estelarAllZeroHistory).scores).map Prod.snd) = 0 := by
  decide

/-- C1, amended.  For every score map with nonnegative values, if the map is
nonempty and its maximum value is positive, then after
`BasePattern.normalize_scores` every value lies in `[0, 1]` and the maximum
value is exactly `1`; when the maximum is `0`, `normalize_scores` returns the
map unchanged (so a nonempty all-zero map survives normalization, which
`PatternEstelar.analyze` can produce — see the counterexample). -/
theorem C1_amended (scores : Dict ℤ ℚ)
    (hnn : ∀ v ∈ scores.map Prod.snd, 0 ≤ v) (hne : scores ≠ [])
    (hpos : 0 < listMax (scores.map Prod.snd)) :
    (∀ v ∈ (normalize_scores scores).map Prod.snd, 0 ≤ v ∧ v ≤ 1) ∧
    listMax ((normalize_scores scores).map Prod.snd) = 1 ∧
    (∀ s : Dict ℤ ℚ, listMax (s.map Prod.snd) = 0 → normalize_scores s = s) := by
  have hM : listMax (scores.map Prod.snd) ≠ 0 := ne_of_gt hpos
  have hmap0 : normalize_scores scores
      = scores.map (fun p => (p.1, p.2 / listMax (scores.map Prod.snd))) := by
    unfold normalize_scores
    rw [if_neg (fun h => hne (List.isEmpty_iff.mp h)), if_neg hM]
  have hmap : (normalize_scores scores).map Prod.snd
      = (scores.map Prod.snd).map (· / listMax (scores.map Prod.snd)) := by
    rw [hmap0, List.map_map, List.map_map]
    rfl
  refine ⟨?_, ?_, ?_⟩
  · intro v hv
    rw [hmap] at hv
    rcases List.mem_map.mp hv with ⟨w, hw, rfl⟩
    constructor
    · exact div_nonneg (hnn w hw) (le_of_lt hpos)
    · rw [div_le_one hpos]
      exact le_listMax _ w hw
  · rw [hmap, listMax_map_div _ hpos, div_self hM]
  · intro s hs
    by_cases h0 : s.isEmpty
    · simp only [normalize_scores, h0, if_true]
      exact (List.isEmpty_iff.mp h0).symm
    · simp [normalize_scores, h0, hs]

/-- C1, witness for the amended theorem at the concrete score map
`{7: 2.0, 3: 1.0}`. -/
theorem C1_amended_witness :
    (∀ v ∈ ([((7 : ℤ), (2 : ℚ)), (3, 1)] : Dict ℤ ℚ).map Prod.snd, 0 ≤ v) ∧
    ([((7 : ℤ), (2 : ℚ)), (3, 1)] : Dict ℤ ℚ) ≠ [] ∧
    0 < listMax (([((7 : ℤ), (2 : ℚ)), (3, 1)] : Dict ℤ ℚ).map Prod.snd) ∧
    listMax ((normalize_scores [((7 : ℤ), (2 : ℚ)), (3, 1)]).map Prod.snd) = 1 := by
  refine ⟨by decide, by decide, by decide, ?_⟩
  exact (C1_amended [((7 : ℤ), (2 : ℚ)), (3, 1)] (by decide) (by decide)
    (by decide)).2.1

/-! ## Claim C8 -/

/-- The configuration of C8's second scenario: terminal-family and
transposition (behavioural/inversion) weights set to zero. -/
def estelarZeroTermBehavConfig : Estelar.Config :=
  { Estelar.defaultConfig with
      wTERMINAL := 0
      wBEHAVIORAL := 0 }

attribute [local semireducible] Rat.mul Rat.add Rat.sub Rat.inv Rat.ofScientific in
/-- C8, counterexample.  The claim states that with terminal-family and
transposition equivalence enabled at nonzero weight (the default
configuration), the windows `[9, 22, 31]` and `[19, 31, 22]` are recognized
as equivalent, i.e. grouped as two occurrences of one trinca.  In
`PatternEstelar.process_history` two extracted trincas contribute occurrences
to one `Trinca` only when they produce the *same* normalized pattern; but the
normalized-variant pattern sets of `(9, 22, 31)` and `(19, 31, 22)` under the
default configuration are disjoint — `normalize_trinca` generates
terminal-family substitutions only when the terminal of the trinca's first
element repeats inside it, which fails for both windows (terminals
`[9, 2, 1]` and `[9, 1, 2]`). -/
theorem C8_counterexample :
    List.Disjoint
      ((Estelar.normalize_trinca Estelar.defaultConfig (9, 22, 31)).map
        fun v => v.1)
      ((Estelar.normalize_trinca Estelar.defaultConfig (19, 31, 22)).map
        fun v => v.1) :=
  List.disjoint_left.mpr (by decide)

attribute [local semireducible] Rat.mul Rat.add Rat.sub Rat.inv Rat.ofScientific in
/-- C8, amended.  The windows `[9, 22, 31]` and `[19, 31, 22]` are *not*
recognized as equivalent by `PatternEstelar` in either scenario: their
normalized-variant pattern sets are disjoint both under the default
configuration (terminal-family weight `0.6` and behavioural/transposition
weight `0.3`, both nonzero) and with those two weights set to zero — because
terminal substitutions are generated only when the terminal of the first
element occurs at least twice in the trinca.  (The second half of the
original claim is true; the first half is false.) -/
theorem C8_amended :
    (∀ p ∈ (Estelar.normalize_trinca Estelar.defaultConfig (9, 22, 31)).map
        (fun v => v.1),
        p ∉ (Estelar.normalize_trinca Estelar.defaultConfig (19, 31, 22)).map
          (fun v => v.1)) ∧
    (∀ p ∈ (Estelar.normalize_trinca estelarZeroTermBehavConfig (9, 22, 31)).map
        (fun v => v.1),
        p ∉ (Estelar.normalize_trinca estelarZeroTermBehavConfig
          (19, 31, 22)).map (fun v => v.1)) ∧
    Estelar.eqWeight Estelar.defaultConfig Estelar.EqType.TERMINAL ≠ 0 ∧
    Estelar.eqWeight Estelar.defaultConfig Estelar.EqType.BEHAVIORAL ≠ 0 := by
  exact ⟨by decide, by decide, by decide, by decide⟩

/-! ## Claim C2 -/

/-- `updateBucket` keeps every retained pattern's confidence positive and its
count at least `1`, provided the new observation's weight is positive. -/
lemma chain_updateBucket_pos (lst : List Chain.ChainPattern) (seq : List ℤ)
    (outcome : ℤ) (i : ℕ) (w : ℚ) (hw : 0 < w)
    (hl : ∀ p ∈ lst, 0 < p.confidence ∧ 1 ≤ p.count) :
    ∀ p ∈ Chain.updateBucket lst seq outcome i w,
      0 < p.confidence ∧ 1 ≤ p.count := by
  induction lst with
  | nil =>
    intro p hp
    rcases List.mem_singleton.mp hp with rfl
    exact ⟨hw, le_refl 1⟩
  | cons q rest ih =>
    intro p hp
    unfold Chain.updateBucket at hp
    by_cases hq : q.outcome = outcome
    · rw [if_pos hq] at hp
      rcases List.mem_cons.mp hp with h1 | h1
      · subst h1
        have hq0 := hl q (List.mem_cons_self q rest)
        exact ⟨add_pos hq0.1 hw, le_trans hq0.2 (Nat.le_succ _)⟩
      · exact hl p (List.mem_cons_of_mem _ h1)
    · rw [if_neg hq] at hp
      rcases List.mem_cons.mp hp with h1 | h1
      · rw [h1]; exact hl q (List.mem_cons_self q rest)
      · exact ih (fun r hr => hl r (List.mem_cons_of_mem _ hr)) p h1

/-- `updateChains` preserves the positivity invariant over every bucket. -/
lemma chain_updateChains_pos (d : Dict (List ℤ) (List Chain.ChainPattern))
    (seq : List ℤ) (outcome : ℤ) (i : ℕ) (w : ℚ) (hw : 0 < w)
    (hd : ∀ kl ∈ d, ∀ p ∈ kl.2, 0 < p.confidence ∧ 1 ≤ p.count) :
    ∀ kl ∈ Chain.updateChains d seq outcome i w, ∀ p ∈ kl.2,
      0 < p.confidence ∧ 1 ≤ p.count := by
  induction d with
  | nil =>
    intro kl hkl
    rcases List.mem_singleton.mp hkl with rfl
    exact chain_updateBucket_pos [] seq outcome i w hw (by intro p hp; cases hp)
  | cons kv rest ih =>
    obtain ⟨k, lst⟩ := kv
    intro kl hkl
    unfold Chain.updateChains at hkl
    by_cases hk : k = seq
    · rw [if_pos hk] at hkl
      rcases List.mem_cons.mp hkl with h1 | h1
      · subst h1
        exact chain_updateBucket_pos lst seq outcome i w hw
          (hd (k, lst) (List.mem_cons_self _ _))
      · exact hd kl (List.mem_cons_of_mem _ h1)
    · rw [if_neg hk] at hkl
      rcases List.mem_cons.mp hkl with h1 | h1
      · subst h1; exact hd (k, lst) (List.mem_cons_self _ _)
      · exact ih (fun r hr => hd r (List.mem_cons_of_mem _ hr)) kl h1

/-- Every pattern learned by `_learn_chains_of_length` has positive confidence
and count at least `1` whenever the decay base is positive. -/
lemma chain_learn_len_pos (decay : ℚ) (hist : List ℤ) (length : ℕ)
    (hdecay : 0 < decay) :
    ∀ kl ∈ Chain.learn_chains_of_length decay hist length, ∀ p ∈ kl.2,
      0 < p.confidence ∧ 1 ≤ p.count := by
  unfold Chain.learn_chains_of_length
  refine foldl_invariant _
    (fun d : Dict (List ℤ) (List Chain.ChainPattern) =>
      ∀ kl ∈ d, ∀ p ∈ kl.2, 0 < p.confidence ∧ 1 ≤ p.count)
    ?_ _ _ ?_
  · intro d i hd
    exact chain_updateChains_pos d _ _ _ _ (pow_pos hdecay _) hd
  · intro kl hkl; cases hkl

/-- Every pattern retained in the chain model after `_learn_from_history` has
positive confidence and count at least `1` (positive decay base). -/
lemma chain_learn_pos (cfg : Chain.Config) (st : Chain.State) (h : List ℤ)
    (hdecay : 0 < cfg.decay) :
    ∀ p ∈ Chain.entries (Chain.learn_from_history cfg st h),
      0 < p.confidence ∧ 1 ≤ p.count := by
  have heq : (Chain.learn_from_history cfg st h).chains
      = (Estelar.range1 (cfg.max_length + 1)).foldl
          (fun cs len =>
            if (Chain.learn_chains_of_length cfg.decay h.reverse len).isEmpty then cs
            else cs ++ [(len, Chain.learn_chains_of_length cfg.decay h.reverse len)])
          [] := rfl
  have hchains : ∀ ld ∈ (Chain.learn_from_history cfg st h).chains,
      ∀ kl ∈ ld.2, ∀ p ∈ kl.2, 0 < p.confidence ∧ 1 ≤ p.count := by
    rw [heq]
    refine foldl_invariant _
      (fun cs : Dict ℕ (Dict (List ℤ) (List Chain.ChainPattern)) =>
        ∀ ld ∈ cs, ∀ kl ∈ ld.2, ∀ p ∈ kl.2,
          0 < p.confidence ∧ 1 ≤ p.count) ?_ _ _ ?_
    · intro cs len hcs
      by_cases hlen : (Chain.learn_chains_of_length cfg.decay h.reverse len).isEmpty
      · rw [if_pos hlen]; exact hcs
      · rw [if_neg hlen]
        intro ld hld
        rcases List.mem_append.mp hld with h1 | h1
        · exact hcs ld h1
        · rcases List.mem_singleton.mp h1 with rfl
          exact chain_learn_len_pos cfg.decay h.reverse len hdecay
    · intro ld hld; cases hld
  intro p hp
  unfold Chain.entries at hp
  rw [List.mem_flatMap] at hp
  obtain ⟨ld, hld, hp2⟩ := hp
  rw [List.mem_flatMap] at hp2
  obtain ⟨kl, hkl, hpk⟩ := hp2
  exact hchains ld hld kl hkl p hpk

/-- The history driving the C2 counterexample: five strictly alternating
`3, 7` pairs (most recent first). -/
def chainTickHistory : List ℤ := [3, 7, 3, 7, 3, 7, 3, 7, 3, 7]

attribute [local semireducible] Rat.mul Rat.add Rat.sub Rat.inv Rat.ofScientific in
set_option maxRecDepth 100000 in
/-- C2 counterexample: `_learn_from_history` does not decay or prune the
previous model — it discards it and relearns from scratch.  Running a second
learning tick on the identical history leaves the model exactly equal to the
first tick's model; in particular the retained `[3] → 7` chain entry has
positive confidence that is *unchanged* by the tick, not multiplied by the
decay factor `0.95`, and nothing is ever removed by an epsilon threshold (no
epsilon exists in the code). -/
theorem C2_counterexample :
    (Chain.learn_from_history Chain.defaultConfig
        (Chain.learn_from_history Chain.defaultConfig Chain.initState chainTickHistory)
        chainTickHistory
      = Chain.learn_from_history Chain.defaultConfig Chain.initState chainTickHistory)
  ∧ (0 < (Chain.confidence_of
        (Chain.learn_from_history Chain.defaultConfig Chain.initState chainTickHistory)
        1 [3] 7).getD 0)
  ∧ ((Chain.confidence_of
        (Chain.learn_from_history Chain.defaultConfig
          (Chain.learn_from_history Chain.defaultConfig Chain.initState chainTickHistory)
          chainTickHistory)
        1 [3] 7).getD 0
      ≠ Chain.defaultConfig.decay *
        (Chain.confidence_of
          (Chain.learn_from_history Chain.defaultConfig Chain.initState chainTickHistory)
          1 [3] 7).getD 0) := by
  refine ⟨by decide, by decide, by decide⟩

/-- C2 amended: each learning tick of the chain learner *clears* the previous
model and relearns from the full history, so the resulting model depends only
on the history (never on the prior state), and every retained chain entry has
positive confidence (a sum of positive decay-power weights) and occurrence
count at least `1`.  No multiplicative decay of existing entries and no
epsilon pruning take place. -/
theorem C2_amended (st st2 : Chain.State) (h : List ℤ) :
    Chain.learn_from_history Chain.defaultConfig st h
      = Chain.learn_from_history Chain.defaultConfig st2 h
  ∧ ∀ p ∈ Chain.entries (Chain.learn_from_history Chain.defaultConfig st h),
      0 < p.confidence ∧ 1 ≤ p.count := by
  constructor
  · rfl
  · exact chain_learn_pos Chain.defaultConfig st h (by norm_num [Chain.defaultConfig])

attribute [local semireducible] Rat.mul Rat.add Rat.sub Rat.inv Rat.ofScientific in
/-- C2 amended, witnessed at the concrete history `[3, 7]`: the single learned
length-`1` chain `[7] → 3` is retained with confidence `0.95 > 0` and count
`1`. -/
theorem C2_amended_witness :
    0 < (⟨[7], 3, 1, 0, (0.95 : ℚ)⟩ : Chain.ChainPattern).confidence ∧
    1 ≤ (⟨[7], 3, 1, 0, (0.95 : ℚ)⟩ : Chain.ChainPattern).count :=
  (C2_amended Chain.initState Chain.initState [3, 7]).2 _ (by decide)

/-! ## Claim C3 -/

/-- A valid five-spin history of identical numbers; every property repeats,
so many numbers are backed by two or more properties and the cumulative
`confluences_found` statistic grows on every call. -/
def masterRepHistory : List ℤ := [1, 1, 1, 1, 1]

attribute [local semireducible] Rat.mul Rat.add Rat.sub Rat.inv Rat.ofScientific in
set_option maxRecDepth 100000 in
/-- C3 counterexample: calling `PatternMaster.analyze` twice with the identical
valid input on the same instance returns identical candidates and scores but
*different* metadata — the `confluences` field exposes the cumulative
`stats['confluences_found']` counter (25 after the first call, 50 after the
second), so the outputs of the two calls are not identical. -/
theorem C3_counterexample :
    ((Master.analyze (Master.analyze Master.initStats masterRepHistory).2
        masterRepHistory).1.candidatos
      = (Master.analyze Master.initStats masterRepHistory).1.candidatos)
  ∧ ((Master.analyze (Master.analyze Master.initStats masterRepHistory).2
        masterRepHistory).1.scores
      = (Master.analyze Master.initStats masterRepHistory).1.scores)
  ∧ ((Master.analyze (Master.analyze Master.initStats masterRepHistory).2
        masterRepHistory).1
      ≠ (Master.analyze Master.initStats masterRepHistory).1) := by
  refine ⟨by decide, by decide, by decide⟩

set_option maxRecDepth 4000 in
/-- C3 amended: for every history, `PatternMaster.analyze` returns candidates
and scores that are independent of the instance's accumulated statistics, and
its metadata is call-independent *except* for the `confluences` field, which
reports the cumulative `confluences_found` counter: the updated counter is the
incoming one plus a history-determined increment. -/
theorem C3_amended (s1 s2 : Master.Stats) (h : List ℤ) :
    ((Master.analyze s1 h).1.candidatos = (Master.analyze s2 h).1.candidatos)
  ∧ ((Master.analyze s1 h).1.scores = (Master.analyze s2 h).1.scores)
  ∧ ((Master.analyze s1 h).1.meta.modConfluences
      = (Master.analyze s2 h).1.meta.modConfluences)
  ∧ ((Master.analyze s1 h).2.confluences_found
      = s1.confluences_found
        + (Master.analyze Master.initStats h).2.confluences_found) := by
  by_cases hv : validate_history h 5
  · by_cases hc : (Master.analyze_core h).empty
    · simp [Master.analyze, hv, hc, Master.ResultMeta.modConfluences, Master.initStats]
    · simp [Master.analyze, hv, hc, Master.ResultMeta.modConfluences, Master.initStats]
  · simp [Master.analyze, hv, Master.ResultMeta.modConfluences, Master.initStats]

/-! ## Claim C4 -/

/-- C4: calling `PuxadasPattern.analyze` with a history shorter than its
minimum (the empty history) does *not* return an empty `PatternResult` — the
insufficient-history branch constructs the `PatternResult` dataclass without
its required `candidatos` and `pattern_name` fields and therefore raises
`TypeError`, for every configuration and every loaded pull-statistics data
set. -/
theorem C4_theorem (cfg : Puxadas.Config) (dados : Dict ℤ (List Puxadas.Puxado)) :
    Puxadas.analyze cfg dados [] = Except.error Puxadas.PyError.typeError := rfl

/-! ## Claim C5 -/

/-- Master's score map for the tie-break counterexample: outcome `20` only. -/
def c5Master : Dict ℤ ℚ := [(20, 1)]

/-- Estelar's score map: outcome `3` at half weight. -/
def c5Estelar : Dict ℤ ℚ := [(3, 0.5)]

/-- Chain's score map: outcome `3` at half weight again, so `3` is backed by
two matchers and ties `20` in combined score. -/
def c5Chain : Dict ℤ ℚ := [(3, 0.5)]

attribute [local semireducible] Rat.mul Rat.add Rat.sub Rat.inv Rat.ofScientific in
/-- C5 counterexample: with default weights, outcomes `20` (one contributing
matcher) and `3` (two contributing matchers) tie at combined score `1`, yet
the route's ranking places `20` first — insertion order of the combined
dictionary, not the spec's matcher-count/lower-value tie-break, which would
rank `3` first on both keys. -/
theorem C5_counterexample :
    (dget (Ensemble.calcular_ensemble c5Master c5Estelar c5Chain [] 0.2 0.2 0.2 0.2) 20
        = some 1
      ∧ dget (Ensemble.calcular_ensemble c5Master c5Estelar c5Chain [] 0.2 0.2 0.2 0.2) 3
        = some 1)
  ∧ Ensemble.candidatos_ordenados
      (Ensemble.calcular_ensemble c5Master c5Estelar c5Chain [] 0.2 0.2 0.2 0.2)
      = [(20, 1), (3, 1)]
  ∧ (dmem c5Master 3 = false ∧ dmem c5Estelar 3 = true ∧ dmem c5Chain 3 = true
      ∧ dmem c5Master 20 = true ∧ dmem c5Estelar 20 = false
      ∧ dmem c5Chain 20 = false) := by
  refine ⟨⟨by decide, by decide⟩, by decide, by decide⟩

/-- C5 amended: the ensemble ranking sorts the combined score map descending
by combined score only — the output is a permutation of the combined map that
is weakly decreasing in score; equal scores keep the combined map's insertion
order (matcher processing order), with no matcher-count or numeric-value
tie-break. -/
theorem C5_amended (master estelar chain temporal : Dict ℤ ℚ)
    (wm we wc wt : ℚ) :
    List.Perm
      (Ensemble.candidatos_ordenados
        (Ensemble.calcular_ensemble master estelar chain temporal wm we wc wt))
      (Ensemble.calcular_ensemble master estelar chain temporal wm we wc wt)
  ∧ (Ensemble.candidatos_ordenados
      (Ensemble.calcular_ensemble master estelar chain temporal wm we wc wt)).Pairwise
      (fun a b => b.2 ≤ a.2) :=
  ⟨sortedDesc_is_perm Prod.snd _, sortedDesc_pairwise Prod.snd _⟩

/-! ## Claim C6 -/

/-- For a history of at least 10 numbers the structure search always
succeeds: the heuristic fallback fires whenever the earlier searches fail. -/
lemma validacao_estrutura_isSome (l : List ℤ) (hlen : 10 ≤ l.length) :
    (Validacao.identificar_estrutura l).isSome = true := by
  unfold Validacao.identificar_estrutura
  rw [if_neg (by omega : ¬ l.length < 10)]
  cases hR : Validacao.findRepeticao l with
  | some e => rfl
  | none =>
    cases hA : Validacao.findAlternancia l with
    | some e => rfl
    | none =>
      cases hC : Validacao.findCrescente l with
      | some e => rfl
      | none => rw [if_pos (by omega : 7 ≤ l.length)]; rfl

/-- C6 counterexample: on a history too short for motif identification the
validator returns the bare two-field verdict — `confluencia_detectada` is
`False`, but there is *no* multiplier key at all (`boost_multiplicador` is
absent, not the neutral `1.0` the spec promises; no penalty multiplier exists
anywhere in the class). -/
theorem C6_counterexample :
    (Validacao.validar_sinal [] [1, 2, 3] Validacao.emptyMeta).confluencia_detectada
        = false
  ∧ (Validacao.validar_sinal [] [1, 2, 3] Validacao.emptyMeta).estrutura_identificada
        = false
  ∧ (Validacao.validar_sinal [] [1, 2, 3] Validacao.emptyMeta).boost_multiplicador
        = none
  ∧ (Validacao.validar_sinal [] [1, 2, 3] Validacao.emptyMeta).boost_multiplicador
        ≠ some 1 := by
  refine ⟨rfl, rfl, rfl, by decide⟩

set_option maxRecDepth 8000 in
/-- C6 amended: when the recent history (first 30 numbers) is shorter than 10
the validator cannot identify a structure and returns only
`confluencia_detectada=False, estrutura_identificada=False` — every other
verdict key, including any multiplier, is absent; the downstream consumer
reads the missing keys with `.get` defaults and leaves every ensemble score
unchanged, so the net effect is neutral despite the missing keys.  For a
recent history of 10 or more numbers a structure is *always* identified (the
heuristic fallback never fails), so "no heuristic matches" cannot occur. -/
theorem C6_amended (candidatos scores : Dict ℤ ℚ) (historico historico2 : List ℤ)
    (meta : Validacao.MetaPadroes)
    (hshort : (historico.take 30).length < 10) :
    (Validacao.validar_sinal candidatos historico meta).confluencia_detectada = false
  ∧ (Validacao.validar_sinal candidatos historico meta).estrutura_identificada = false
  ∧ (Validacao.validar_sinal candidatos historico meta).boost_multiplicador = none
  ∧ (Validacao.aplicar_validacao_ancoras scores historico meta).1 = scores
  ∧ (10 ≤ (historico2.take 30).length →
      (Validacao.validar_sinal candidatos historico2 meta).estrutura_identificada
        = true) := by
  have hE : Validacao.identificar_estrutura (historico.take 30) = none := by
    unfold Validacao.identificar_estrutura
    rw [if_pos hshort]
  refine ⟨?_, ?_, ?_, ?_, ?_⟩
  · simp [Validacao.validar_sinal, hE]
  · simp [Validacao.validar_sinal, hE]
  · simp [Validacao.validar_sinal, hE]
  · have h2 : Validacao.validar_sinal scores historico meta
        = ⟨false, false, none, none, none, none, none, none, none, none, none,
           none, none, none⟩ := by
      simp [Validacao.validar_sinal, hE]
    simp only [Validacao.aplicar_validacao_ancoras]
    rw [h2]
    simp
  · intro hlen
    obtain ⟨e, he⟩ := Option.isSome_iff_exists.mp
      (validacao_estrutura_isSome (historico2.take 30) hlen)
    simp [Validacao.validar_sinal, he]

/-- C6 amended, witnessed at the concrete short history `[1, 2]` with the
score map `[(5, 1)]`: no multiplier key, and the adjusted scores are
unchanged. -/
theorem C6_amended_witness :
    (Validacao.validar_sinal [] [1, 2] Validacao.emptyMeta).boost_multiplicador = none
  ∧ (Validacao.aplicar_validacao_ancoras [(5, 1)] [1, 2] Validacao.emptyMeta).1
      = [(5, 1)] :=
  ⟨(C6_amended [] [(5, 1)] [1, 2] [] Validacao.emptyMeta (by decide)).2.2.1,
   (C6_amended [] [(5, 1)] [1, 2] [] Validacao.emptyMeta (by decide)).2.2.2.1⟩

/-! ## Claim C7 -/

/-- Scenario A's sequence, most recent first. -/
def c7History : List ℤ := [5, 5, 7, 1, 9, 5, 5, 7, 2, 5, 5, 7]

/-- C7: on Scenario A's sequence with window 3 and minSupport 1 the window
`[5,5,7]` is found recurring at rest-indices 2 and 6 (real indices 5 and 9),
but for *every* temporal weight function the matcher scores only the number
`5` — `history[idx_real + 1]`, the middle element *inside* each matched
window — while the chronological successors of the two recurrences,
`9 = history[4]` and `2 = history[8]`, receive no score at all. -/
theorem C7_theorem (w : ℕ → ℕ → ℚ) :
    encontrar_sequencia (c7History.drop 3) (c7History.take 3) = [2, 6]
  ∧ (MasterBackup.buscar_padroes_exatos c7History 3 1 w []).1
      = [(5, w 5 12 + w 9 12)]
  ∧ (MasterBackup.buscar_padroes_exatos c7History 3 1 w []).2 = 2
  ∧ dget (MasterBackup.buscar_padroes_exatos c7History 3 1 w []).1 9 = none
  ∧ dget (MasterBackup.buscar_padroes_exatos c7History 3 1 w []).1 2 = none
  ∧ c7History.getD 4 0 = 9
  ∧ c7History.getD 8 0 = 2 := by
  refine ⟨by decide, rfl, rfl, rfl, rfl, rfl, rfl⟩

/-! ## Claim C9 -/

set_option maxRecDepth 8000 in
/-- C9: for every input, the validator's verdict carries an empty
`numeros_invalidados` list (the source initializes it to `[]` and never
appends), so the downstream penalty loop of `aplicar_validacao_ancoras`
iterates over nothing: the adjusted scores are exactly the boost step's
output — no score is ever halved. -/
theorem C9_theorem (candidatos scores : Dict ℤ ℚ) (historico numeros : List ℤ)
    (meta : Validacao.MetaPadroes) :
    ((Validacao.validar_sinal candidatos historico meta).numeros_invalidados).getD []
        = []
  ∧ (Validacao.aplicar_validacao_ancoras scores numeros meta).1
      = (if (Validacao.validar_sinal scores numeros meta).confluencia_detectada then
          ((Validacao.validar_sinal scores numeros meta).numeros_validados.getD
              []).foldl
            (fun sc num => if dmem sc num then dmul sc num
              ((Validacao.validar_sinal scores numeros meta).boost_multiplicador.getD
                1.5)
              else sc)
            scores
        else scores) := by
  have hinv : ∀ (c : Dict ℤ ℚ) (h : List ℤ) (m : Validacao.MetaPadroes),
      ((Validacao.validar_sinal c h m).numeros_invalidados).getD [] = [] := by
    intro c h m
    cases hE : Validacao.identificar_estrutura (h.take 30) with
    | none => simp [Validacao.validar_sinal, hE]
    | some e => simp [Validacao.validar_sinal, hE]
  refine ⟨hinv _ _ _, ?_⟩
  simp only [Validacao.aplicar_validacao_ancoras]
  rw [hinv scores numeros meta]
  simp

/-! ## Claim C10 -/

/-- Any out-of-range element makes `validate_history` reject the whole
history, for every minimum size. -/
lemma validate_history_false (h : List ℤ) (x : ℤ) (hx : x ∈ h)
    (hbad : x < 0 ∨ 36 < x) (n : ℕ) : validate_history h n = false := by
  unfold validate_history
  by_cases hc : h.isEmpty ∨ h.length < n
  · rw [if_pos hc]
  · rw [if_neg hc]
    refine List.all_eq_false.mpr ⟨x, hx, ?_⟩
    simp only [Bool.and_eq_true, decide_eq_true_eq, not_and_or]
    rcases hbad with hb | hb
    · exact Or.inl (by omega)
    · exact Or.inr (by omega)

/-- C10: a history containing any value outside `[0, 36]` is rejected inside
each matcher's `analyze`: the property matcher returns the empty
invalid-history result with its stats untouched, the chain matcher returns
the empty insufficient result with its learned state untouched, and the
equivalence matcher returns the empty invalid-history result. -/
theorem C10_theorem (h : List ℤ) (x : ℤ) (st : Chain.State) (s : Master.Stats)
    (cfg : Estelar.Config) (hx : x ∈ h) (hbad : x < 0 ∨ 36 < x) :
    Master.analyze s h = (⟨[], [], Master.ResultMeta.invalid⟩, s)
  ∧ Chain.analyze Chain.defaultConfig st h
      = (⟨[], [], Chain.Meta.insufficient h.length⟩, st)
  ∧ Estelar.analyze cfg h = ⟨[], [], Estelar.Meta.invalidHistory⟩ := by
  have hv : ∀ n, validate_history h n = false :=
    fun n => validate_history_false h x hx hbad n
  refine ⟨?_, ?_, ?_⟩
  · simp [Master.analyze, hv]
  · simp [Chain.analyze, hv]
  · simp [Estelar.analyze, hv]

/-- C10 witnessed at the 12-number history whose only flaw is the value
`100`: all three matchers reject it. -/
theorem C10_witness :
    Master.analyze Master.initStats [100, 1, 2, 3, 4, 5, 6, 7, 8, 9, 10, 11]
        = (⟨[], [], Master.ResultMeta.invalid⟩, Master.initStats)
  ∧ Chain.analyze Chain.defaultConfig Chain.initState
        [100, 1, 2, 3, 4, 5, 6, 7, 8, 9, 10, 11]
      = (⟨[], [], Chain.Meta.insufficient 12⟩, Chain.initState)
  ∧ Estelar.analyze Estelar.defaultConfig [100, 1, 2, 3, 4, 5, 6, 7, 8, 9, 10, 11]
      = ⟨[], [], Estelar.Meta.invalidHistory⟩ :=
  C10_theorem [100, 1, 2, 3, 4, 5, 6, 7, 8, 9, 10, 11] 100 Chain.initState
    Master.initStats Estelar.defaultConfig (by decide) (by decide)

end ApiNeural
